import Mathlib

/-!
Verification of the multi-metric candidate/job similarity engine
(`src/similarity_engine/similarity_engine.py` and the metric modules under
`src/similarity_engine/` and `src/backend/similarity_engine/`).

The Python code is shallowly embedded:
* Python's dynamically typed values (record fields coming from the database)
  are modelled by the inductive type `PyVal`; dictionaries are association
  lists keyed by `String`.
* Python floats are modelled by exact rationals `ℚ`.
* Python exceptions are modelled by `Except Err`; a `try/except` block in the
  source becomes `Except.getD`-style recovery in the embedding.
* `difflib.SequenceMatcher.ratio` is implemented from its documented
  semantics (longest matching block, earliest in `a` then in `b`, recursing on
  both sides; `ratio = 2*M/T`).  The autojunk heuristic, which only triggers
  for sequences of 200+ characters, is not modelled.
* The embedding providers (`InMemoryVectorStore` + embedding model) are
  external network collaborators; they are modelled by an oracle
  `EmbOracle : String → String → ℚ` giving the distance returned by
  `similarity_search_with_score` for a query against a single stored document.
-/

namespace CPM

/-- A dynamically typed Python value, as stored in candidate/job records. -/
inductive PyVal where
  | vNone : PyVal
  | vBool : Bool → PyVal
  | vInt : ℤ → PyVal
  | vStr : String → PyVal
  | vList : List PyVal → PyVal
  | vDict : List (String × PyVal) → PyVal

/-- A Python dict with string keys. -/
abbrev PyDict := List (String × PyVal)

/-- Python exceptions that the embedded code can raise. -/
inductive Err where
  | typeError : Err
  | attributeError : Err
  | keyError : String → Err
  | valueError : Err
  | zeroDivisionError : Err
  deriving DecidableEq

deriving instance DecidableEq for Except

/-- Python truthiness (`bool(v)`). -/
def truthy : PyVal → Bool
  | .vNone => false
  | .vBool b => b
  | .vInt n => n != 0
  | .vStr s => s ≠ ""
  | .vList xs => ¬xs.isEmpty
  | .vDict fs => ¬fs.isEmpty

/-- `d[k]` as an optional lookup (first binding wins, as in a dict). -/
def dget (d : PyDict) (k : String) : Option PyVal :=
  (d.find? (fun p => p.1 == k)).map (·.2)

/-- Python `d.get(k, default)`. -/
def dgetd (d : PyDict) (k : String) (v : PyVal) : PyVal :=
  (dget d k).getD v

/-- Python `a or b` (returns `a` when truthy, else `b`). -/
def pyOr (a b : PyVal) : PyVal :=
  if truthy a then a else b

/-- Python iteration `for x in v` / `list(v)`: lists yield their elements,
strings their characters (as 1-character strings), dicts their keys;
other values raise `TypeError`. -/
def pyElems : PyVal → Except Err (List PyVal)
  | .vList xs => .ok xs
  | .vStr s => .ok (s.data.map (fun c => .vStr (String.mk [c])))
  | .vDict fs => .ok (fs.map (fun p => .vStr p.1))
  | _ => .error .typeError

/-- Python `s.lower()` (character-wise, so it evaluates by reduction). -/
def strLower (s : String) : String := String.mk (s.data.map Char.toLower)

/-- Whitespace as stripped by Python `str.strip()` (the common ASCII kinds). -/
def isWS (c : Char) : Bool := c = ' ' ∨ c = '\t' ∨ c = '\n' ∨ c = '\r'

/-- Python `s.strip()`. -/
def strTrim (s : String) : String :=
  String.mk (((s.data.dropWhile isWS).reverse.dropWhile isWS).reverse)

/-- Python `v.lower()`: only defined on strings (`AttributeError` otherwise). -/
def pyLowerE : PyVal → Except Err String
  | .vStr s => .ok (strLower s)
  | _ => .error .attributeError

/-- A value used where the code needs a string (e.g. embedded as a query
text); non-strings raise `TypeError`. -/
def asStrE : PyVal → Except Err String
  | .vStr s => .ok s
  | _ => .error .typeError

/-- Numeric coercion at a Python `int`-vs-value comparison or division site:
ints (and bools, which are ints in Python) succeed, anything else raises
`TypeError`. -/
def toIntE : PyVal → Except Err ℤ
  | .vInt n => .ok n
  | .vBool b => .ok (if b then 1 else 0)
  | _ => .error .typeError

/-- The string elements of an iterable, for `" ".join(...)`: each element
must be a string, otherwise `TypeError`. -/
def strListOfPyE : List PyVal → Except Err (List String)
  | [] => .ok []
  | .vStr s :: rest => do
      let r ← strListOfPyE rest
      .ok (s :: r)
  | _ :: _ => .error .typeError

/-- Python `" ".join(v)`. -/
def joinSpaceE (v : PyVal) : Except Err String := do
  let elems ← pyElems v
  let strs ← strListOfPyE elems
  .ok (String.intercalate " " strs)

/-! ### `difflib.SequenceMatcher.ratio`

`SM(None, a, b).ratio() = 2*M/T` where `T = len(a) + len(b)` and `M` is the
total size of the matching blocks: the longest block that matches in `a` and
`b` (ties broken by the earliest start in `a`, then in `b`) plus, recursively,
the matching blocks of the pieces to its left and to its right. -/

/-- Length of the common prefix of two character lists. -/
def commonPrefixLen : List Char → List Char → ℕ
  | a :: as, b :: bs => if a = b then commonPrefixLen as bs + 1 else 0
  | _, _ => 0

theorem commonPrefixLen_le_left : ∀ a b : List Char, commonPrefixLen a b ≤ a.length := by
  intro a
  induction a with
  | nil => intro b; cases b <;> simp [commonPrefixLen]
  | cons x xs ih =>
    intro b
    cases b with
    | nil => simp [commonPrefixLen]
    | cons y ys =>
      simp only [commonPrefixLen, List.length_cons]
      split
      · exact Nat.add_le_add_right (ih ys) 1
      · exact Nat.zero_le _

theorem commonPrefixLen_le_right : ∀ a b : List Char, commonPrefixLen a b ≤ b.length := by
  intro a
  induction a with
  | nil => intro b; cases b <;> simp [commonPrefixLen]
  | cons x xs ih =>
    intro b
    cases b with
    | nil => simp [commonPrefixLen]
    | cons y ys =>
      simp only [commonPrefixLen, List.length_cons]
      split
      · exact Nat.add_le_add_right (ih ys) 1
      · exact Nat.zero_le _

/-- The longest matching block of `a` and `b`: `(i, j, k)` with
`a[i:i+k] == b[j:j+k]`, `k` maximal, ties broken by smallest `i`, then
smallest `j` (difflib's `find_longest_match` without junk). -/
def bestMatch (a b : List Char) : ℕ × ℕ × ℕ :=
  (List.range (a.length + 1)).foldl
    (fun best i =>
      (List.range (b.length + 1)).foldl
        (fun best j =>
          let k := commonPrefixLen (a.drop i) (b.drop j)
          if best.2.2 < k then (i, j, k) else best)
        best)
    (0, 0, 0)

/-- Any `bestMatch` result with a nonzero block length stays inside both
sequences. -/
theorem bestMatch_bounds (a b : List Char) :
    (bestMatch a b).2.2 ≠ 0 →
      (bestMatch a b).1 + (bestMatch a b).2.2 ≤ a.length ∧
      (bestMatch a b).2.1 + (bestMatch a b).2.2 ≤ b.length := by
  have key : ∀ (l : List ℕ) (acc : ℕ × ℕ × ℕ),
      (acc.2.2 ≠ 0 → acc.1 + acc.2.2 ≤ a.length ∧ acc.2.1 + acc.2.2 ≤ b.length) →
      ∀ r, r = l.foldl (fun best i =>
          (List.range (b.length + 1)).foldl
            (fun best j =>
              let k := commonPrefixLen (a.drop i) (b.drop j)
              if best.2.2 < k then (i, j, k) else best) best) acc →
        (r.2.2 ≠ 0 → r.1 + r.2.2 ≤ a.length ∧ r.2.1 + r.2.2 ≤ b.length) := by
    intro l
    induction l with
    | nil => intro acc hacc r hr; simpa [hr] using hacc
    | cons i rest ih =>
      intro acc hacc r hr
      apply ih _ _ r (by simpa using hr)
      -- invariant is preserved by the inner fold over j
      have inner : ∀ (lj : List ℕ) (acc2 : ℕ × ℕ × ℕ),
          (acc2.2.2 ≠ 0 → acc2.1 + acc2.2.2 ≤ a.length ∧ acc2.2.1 + acc2.2.2 ≤ b.length) →
          ((lj.foldl (fun best j =>
              let k := commonPrefixLen (a.drop i) (b.drop j)
              if best.2.2 < k then (i, j, k) else best) acc2).2.2 ≠ 0 →
            (lj.foldl (fun best j =>
              let k := commonPrefixLen (a.drop i) (b.drop j)
              if best.2.2 < k then (i, j, k) else best) acc2).1 +
            (lj.foldl (fun best j =>
              let k := commonPrefixLen (a.drop i) (b.drop j)
              if best.2.2 < k then (i, j, k) else best) acc2).2.2 ≤ a.length ∧
            (lj.foldl (fun best j =>
              let k := commonPrefixLen (a.drop i) (b.drop j)
              if best.2.2 < k then (i, j, k) else best) acc2).2.1 +
            (lj.foldl (fun best j =>
              let k := commonPrefixLen (a.drop i) (b.drop j)
              if best.2.2 < k then (i, j, k) else best) acc2).2.2 ≤ b.length) := by
        intro lj
        induction lj with
        | nil => intro acc2 hacc2; simpa using hacc2
        | cons j restj ihj =>
          intro acc2 hacc2
          simp only [List.foldl_cons]
          apply ihj
          by_cases hlt : acc2.2.2 < commonPrefixLen (a.drop i) (b.drop j)
          · simp only [hlt, if_pos]
            intro hk0
            constructor
            · rcases Nat.le_total i a.length with hi | hi
              · have := commonPrefixLen_le_left (a.drop i) (b.drop j)
                rw [List.length_drop] at this
                omega
              · have : a.drop i = [] := List.drop_eq_nil_of_le hi
                rw [this] at hk0 ⊢
                cases b.drop j <;> simp [commonPrefixLen] at hk0 ⊢
            · rcases Nat.le_total j b.length with hj | hj
              · have := commonPrefixLen_le_right (a.drop i) (b.drop j)
                rw [List.length_drop] at this
                omega
              · have : b.drop j = [] := List.drop_eq_nil_of_le hj
                rw [this] at hk0 ⊢
                cases a.drop i <;> simp [commonPrefixLen] at hk0 ⊢
          · simpa [hlt] using hacc2
      exact inner _ acc hacc
  intro h0
  exact key (List.range (a.length + 1)) (0, 0, 0) (by simp) (bestMatch a b) rfl h0

/-- Total matched characters of the matching blocks (fuel-driven; the source
recursion always terminates because each recursive call works on strictly
shorter slices, so `a.length + b.length + 1` fuel is always enough). -/
def matchedCharsAux : ℕ → List Char → List Char → ℕ
  | 0, _, _ => 0
  | fuel + 1, a, b =>
    let m := bestMatch a b
    if m.2.2 = 0 then 0
    else
      matchedCharsAux fuel (a.take m.1) (b.take m.2.1) + m.2.2 +
        matchedCharsAux fuel (a.drop (m.1 + m.2.2)) (b.drop (m.2.1 + m.2.2))

theorem matchedCharsAux_le_left :
    ∀ (fuel : ℕ) (a b : List Char), matchedCharsAux fuel a b ≤ a.length := by
  intro fuel
  induction fuel with
  | zero => intro a b; simp [matchedCharsAux]
  | succ n ih =>
    intro a b
    simp only [matchedCharsAux]
    split
    · exact Nat.zero_le _
    · rename_i hk0
      have hb := bestMatch_bounds a b hk0
      have h1 := ih (a.take (bestMatch a b).1) (b.take (bestMatch a b).2.1)
      have h2 := ih (a.drop ((bestMatch a b).1 + (bestMatch a b).2.2))
        (b.drop ((bestMatch a b).2.1 + (bestMatch a b).2.2))
      rw [List.length_take] at h1
      rw [List.length_drop] at h2
      omega

theorem matchedCharsAux_le_right :
    ∀ (fuel : ℕ) (a b : List Char), matchedCharsAux fuel a b ≤ b.length := by
  intro fuel
  induction fuel with
  | zero => intro a b; simp [matchedCharsAux]
  | succ n ih =>
    intro a b
    simp only [matchedCharsAux]
    split
    · exact Nat.zero_le _
    · rename_i hk0
      have hb := bestMatch_bounds a b hk0
      have h1 := ih (a.take (bestMatch a b).1) (b.take (bestMatch a b).2.1)
      have h2 := ih (a.drop ((bestMatch a b).1 + (bestMatch a b).2.2))
        (b.drop ((bestMatch a b).2.1 + (bestMatch a b).2.2))
      rw [List.length_take] at h1
      rw [List.length_drop] at h2
      omega

/-- `difflib.SequenceMatcher(None, x, y).ratio()`. -/
def ratio (x y : String) : ℚ :=
  let a := x.data
  let b := y.data
  if a.length + b.length = 0 then 1
  else (2 * (matchedCharsAux (a.length + b.length + 1) a b : ℚ)) /
    ((a.length : ℚ) + (b.length : ℚ))

theorem ratio_nonneg (x y : String) : 0 ≤ ratio x y := by
  unfold ratio
  dsimp only
  split
  · norm_num
  · rename_i h
    apply div_nonneg
    · positivity
    · have : (0:ℚ) ≤ (x.data.length : ℚ) := by positivity
      have : (0:ℚ) ≤ (y.data.length : ℚ) := by positivity
      positivity

theorem ratio_le_one (x y : String) : ratio x y ≤ 1 := by
  unfold ratio
  dsimp only
  split
  · norm_num
  · rename_i h
    rw [div_le_one (by exact_mod_cast Nat.pos_of_ne_zero h)]
    have h1 := matchedCharsAux_le_left (x.data.length + y.data.length + 1) x.data y.data
    have h2 := matchedCharsAux_le_right (x.data.length + y.data.length + 1) x.data y.data
    have : 2 * matchedCharsAux (x.data.length + y.data.length + 1) x.data y.data ≤
        x.data.length + y.data.length := by omega
    exact_mod_cast this

/-! ### Rounding

Python's `round(x, 4)` rounds half-to-even.  (The binary floating point
representation of intermediate values is idealised away: scores are exact
rationals here.) -/

/-- Round-half-to-even to an integer. -/
def rhe (q : ℚ) : ℤ :=
  let f := ⌊q⌋
  let r := q - f
  if r < 1/2 then f
  else if 1/2 < r then f + 1
  else if 2 ∣ f then f else f + 1

/-- Python `round(q, 4)`. -/
def round4 (q : ℚ) : ℚ := (rhe (q * 10000) : ℚ) / 10000

theorem rhe_nonneg {q : ℚ} (h : 0 ≤ q) : 0 ≤ rhe q := by
  unfold rhe
  dsimp only
  have hf : (0:ℤ) ≤ ⌊q⌋ := by
    rw [Int.le_floor]
    exact_mod_cast h
  split
  · exact hf
  · split
    · omega
    · split
      · exact hf
      · omega

theorem rhe_le_of_le {q : ℚ} {n : ℤ} (h : q ≤ n) : rhe q ≤ n := by
  unfold rhe
  dsimp only
  have hfn : ⌊q⌋ ≤ n := by
    calc ⌊q⌋ ≤ ⌊(n:ℚ)⌋ := Int.floor_le_floor h
    _ = n := Int.floor_intCast n
  split
  · exact hfn
  · rename_i hnot
    push_neg at hnot
    have hflt : ⌊q⌋ < n := by
      rcases lt_or_eq_of_le hfn with h' | h'
      · exact h'
      · exfalso
        have hq : (⌊q⌋ : ℚ) = (n : ℚ) := by exact_mod_cast h'
        have hge : (1:ℚ)/2 ≤ q - n := by rw [← hq]; exact hnot
        linarith
    split
    · omega
    · split
      · omega
      · omega

theorem round4_nonneg {q : ℚ} (h : 0 ≤ q) : 0 ≤ round4 q := by
  unfold round4
  have : (0:ℤ) ≤ rhe (q * 10000) := rhe_nonneg (by positivity)
  have : (0:ℚ) ≤ (rhe (q * 10000) : ℚ) := by exact_mod_cast this
  positivity

theorem round4_le_one {q : ℚ} (h : q ≤ 1) : round4 q ≤ 1 := by
  unfold round4
  have h1 : q * 10000 ≤ ((10000 : ℤ) : ℚ) := by push_cast; linarith
  have h2 : rhe (q * 10000) ≤ 10000 := rhe_le_of_le h1
  have h3 : (rhe (q * 10000) : ℚ) ≤ 10000 := by exact_mod_cast h2
  linarith

/-! ### Data model (`src/similarity_engine/data_models.py`) -/

/-- `JobContext` (pydantic model).  The lazily built `vector_store` is
modelled by the text of its single stored document. -/
structure JobContext where
  job_id : ℤ
  job_data : PyDict
  required_skills : List String
  job_responsibilities_text : String
  education_requirements : List String
  required_languages : List (String × String)
  required_certifications : List String
  min_years_experience : ℤ
  max_years_experience : Option ℤ
  seniority_level : String
  job_summary : String
  vector_store : Option String := none

/-- The `detailed_breakdown` dict attached to a computed score. -/
structure Breakdown where
  certification_score : ℚ
  weights_used : List (String × ℚ)
  job_id : ℤ
  cached : Bool
  deriving DecidableEq

/-- `SimilarityScore` (pydantic model); `detailed_breakdown = none` models
the empty dict of `_create_empty_score`. -/
structure SimilarityScore where
  overall_score : ℚ
  skills_score : ℚ
  experience_score : ℚ
  education_score : ℚ
  semantic_similarity : ℚ
  seniority_match : ℚ
  detailed_breakdown : Option Breakdown
  deriving DecidableEq

/-- Distance oracle for the embedding provider:
`emb query document = distance` returned by
`similarity_search_with_score(query, k=1)` against the single stored
document. -/
abbrev EmbOracle := String → String → ℚ

/-! ### Skills metric (`src/similarity_engine/skills_similarity.py`) -/

/-- One iteration of the skill-collection loop body (candidate side checks
keys `skills` then `name`; job side additionally checks `requirements`
first).  `extend` raises `TypeError` on non-iterable values. -/
def skillEntryItems (jobSide : Bool) (e : PyVal) : Except Err (List PyVal) :=
  match e with
  | .vDict fs =>
      if jobSide ∧ (dget fs "requirements").isSome then
        pyElems ((dget fs "requirements").getD .vNone)
      else if (dget fs "skills").isSome then
        pyElems ((dget fs "skills").getD .vNone)
      else if (dget fs "name").isSome then
        .ok [(dget fs "name").getD .vNone]
      else .ok []
  | .vStr s => .ok [.vStr s]
  | _ => .ok []

/-- The skill-collection loop over the entries of one field value. -/
def collectSkillItems (jobSide : Bool) : List PyVal → Except Err (List PyVal)
  | [] => .ok []
  | e :: rest => do
      let cur ← skillEntryItems jobSide e
      let r ← collectSkillItems jobSide rest
      .ok (cur ++ r)

/-- Final filter `[skill for skill in skills if skill and isinstance(skill, str)]`. -/
def filterStrSkills (xs : List PyVal) : List String :=
  xs.filterMap (fun v => match v with
    | .vStr s => if s ≠ "" then some s else none
    | _ => none)

/-- `SkillsSimilarityMetric._extract_candidate_skills`. -/
def extract_candidate_skills (c : PyDict) : Except Err (List String) := do
  let raw := pyOr (dgetd c "skills" (.vList [])) (.vList [])
  let entries ← pyElems raw
  let items ← collectSkillItems false entries
  .ok (filterStrSkills items)

/-- The job-side skill loop over the fixed priority field list. -/
def jobSkillFieldsCollect (job : PyDict) : List String → Except Err (List PyVal)
  | [] => .ok []
  | f :: rest => do
      let entries ← pyElems (pyOr (dgetd job f (.vList [])) (.vList []))
      let items ← collectSkillItems true entries
      let r ← jobSkillFieldsCollect job rest
      .ok (items ++ r)

/-- `SkillsSimilarityMetric.extract_job_required_skills`. -/
def extract_job_required_skills (job : PyDict) : Except Err (List String) := do
  let items ← jobSkillFieldsCollect job
    ["required_skills", "skills", "technical_skills", "core_skills"]
  .ok (filterStrSkills items)

/-- Whether a required skill is matched: verbatim membership, or some
candidate skill with similarity ratio at or above the threshold
(`_fuzzy_match_skills`). -/
def skillMatchB (threshold : ℚ) (req : String) (cs : List String) : Bool :=
  decide (req ∈ cs) || cs.any (fun c => decide (threshold ≤ ratio req c))

/-- `len(matched_skills)`: `matched_skills` is a set of required skills, so
duplicate required entries collapse. -/
def fuzzyMatchedCount (cs rs : List String) (threshold : ℚ) : ℕ :=
  ((rs.filter (fun r => skillMatchB threshold r cs)).dedup).length

/-- Body of `SkillsSimilarityMetric.calculate` (threshold 0.6). -/
def skills_calculate_body (c : PyDict) (jc : JobContext) : Except Err ℚ := do
  let cs ← extract_candidate_skills c
  if jc.required_skills.isEmpty then .ok 0.8
  else if cs.isEmpty then .ok 0
  else
    let inter := fuzzyMatchedCount cs jc.required_skills 0.6
    let union := ((cs ++ jc.required_skills).dedup).length
    if union = 0 then .ok 0
    else .ok (min ((inter : ℚ) / (union : ℚ)) 1)

/-- `SkillsSimilarityMetric.calculate`: any internal exception is caught and
converted to 0.0. -/
def skills_calculate (c : PyDict) (jc : JobContext) : ℚ :=
  (skills_calculate_body c jc).toOption.getD 0

theorem skills_calculate_bounds (c : PyDict) (jc : JobContext) :
    0 ≤ skills_calculate c jc ∧ skills_calculate c jc ≤ 1 := by
  unfold skills_calculate skills_calculate_body
  cases hex : extract_candidate_skills c with
  | error e => simp [Except.toOption, bind, Except.bind, hex]
  | ok cs =>
    simp only [bind, Except.bind, hex]
    split
    · simp [Except.toOption]; norm_num
    · split
      · simp [Except.toOption]
      · split
        · simp [Except.toOption]
        · rename_i hu
          simp only [Except.toOption, Option.getD]
          constructor
          · apply le_min
            · apply div_nonneg <;> positivity
            · norm_num
          · exact min_le_right _ _

/-! ### Certification metric
(`src/backend/similarity_engine/certification_similarity.py`) -/

/-- `cert.get("name", "") or cert.get("certification", "")`. -/
def certName (fs : PyDict) : PyVal :=
  pyOr (dgetd fs "name" (.vStr "")) (dgetd fs "certification" (.vStr ""))

/-- The certification-collection loop: dict entries contribute their
lower-cased, stripped name when truthy; string entries likewise. -/
def collectCerts : List PyVal → Except Err (List String)
  | [] => .ok []
  | e :: rest => do
      let cur ← match e with
        | .vDict fs =>
            let nm := certName fs
            if truthy nm then do
              let s ← pyLowerE nm
              .ok [strTrim s]
            else .ok []
        | .vStr s => .ok [strTrim (strLower s)]
        | _ => .ok []
      let r ← collectCerts rest
      .ok (cur ++ r)

/-- `CertificationSimilarityMetric._extract_candidate_certifications`. -/
def extract_candidate_certifications (c : PyDict) : Except Err (List String) := do
  let entries ← pyElems (pyOr (dgetd c "certifications" (.vList [])) (.vList []))
  let certs ← collectCerts entries
  .ok (certs.filter (fun s => s ≠ ""))

/-- The job-side certification loop over the fixed field list. -/
def jobCertFieldsCollect (job : PyDict) : List String → Except Err (List String)
  | [] => .ok []
  | f :: rest => do
      let entries ← pyElems (pyOr (dgetd job f (.vList [])) (.vList []))
      let certs ← collectCerts entries
      let r ← jobCertFieldsCollect job rest
      .ok (certs ++ r)

/-- `CertificationSimilarityMetric.extract_job_required_certifications`. -/
def extract_job_required_certifications (job : PyDict) : Except Err (List String) := do
  let certs ← jobCertFieldsCollect job
    ["required_certifications", "certifications", "certification_requirements",
     "preferred_certifications"]
  .ok (certs.filter (fun s => s ≠ ""))

/-- `CertificationSimilarityMetric._find_matching_certification`
(threshold 0.8). -/
def certMatchB (threshold : ℚ) (req : String) (cands : List String) : Bool :=
  decide (req ∈ cands) || cands.any (fun c => decide (threshold ≤ ratio req c))

/-- Body of `CertificationSimilarityMetric.calculate`. -/
def certification_calculate_body (c : PyDict) (jc : JobContext) : Except Err ℚ := do
  let cc ← extract_candidate_certifications c
  if jc.required_certifications.isEmpty then .ok 0.9
  else if cc.isEmpty then .ok 0
  else
    let matched := (jc.required_certifications.filter (fun r => certMatchB 0.8 r cc)).length
    .ok (min ((matched : ℚ) / (max jc.required_certifications.length 1 : ℕ)) 1)

/-- `CertificationSimilarityMetric.calculate`: exceptions fall back to 0.5. -/
def certification_calculate (c : PyDict) (jc : JobContext) : ℚ :=
  (certification_calculate_body c jc).toOption.getD 0.5

theorem certification_calculate_bounds (c : PyDict) (jc : JobContext) :
    0 ≤ certification_calculate c jc ∧ certification_calculate c jc ≤ 1 := by
  unfold certification_calculate certification_calculate_body
  cases hex : extract_candidate_certifications c with
  | error e => simp [Except.toOption, bind, Except.bind, hex]; norm_num
  | ok cc =>
    simp only [bind, Except.bind, hex]
    split
    · simp [Except.toOption]; norm_num
    · split
      · simp [Except.toOption]
      · simp only [Except.toOption, Option.getD]
        constructor
        · apply le_min
          · apply div_nonneg
            · positivity
            · positivity
          · norm_num
        · exact min_le_right _ _

/-! ### Education metric (`src/similarity_engine/education_similarity.py`,
the per-requirement variant used by the engine) -/

/-- The loop collecting lower-cased candidate degrees and fields of study. -/
def educationDFs : List PyVal → Except Err (List String × List String)
  | [] => .ok ([], [])
  | e :: rest => do
      let cur ← match e with
        | .vDict fs => do
            let dv := dgetd fs "degree" (.vStr "")
            let fv := dgetd fs "field_of_study" (.vStr "")
            let ds ← if truthy dv then do
                let s ← pyLowerE dv
                .ok [s]
              else .ok ([] : List String)
            let fls ← if truthy fv then do
                let s ← pyLowerE fv
                .ok [s]
              else .ok ([] : List String)
            .ok (ds, fls)
        | _ => .ok (([] : List String), ([] : List String))
      let r ← educationDFs rest
      .ok (cur.1 ++ r.1, cur.2 ++ r.2)

/-- Whether one education requirement is satisfied by some candidate degree
or field (similarity ratio strictly above 0.7). -/
def eduReqMatchB (degs flds : List String) (req : String) : Bool :=
  degs.any (fun d => decide ((0.7 : ℚ) < ratio (strLower req) d)) ||
    flds.any (fun f => decide ((0.7 : ℚ) < ratio (strLower req) f))

/-- Body of `EducationSimilarityMetric.calculate`. -/
def education_calculate_body (c : PyDict) (jc : JobContext) : Except Err ℚ := do
  let ce := pyOr (dgetd c "education" (.vList [])) (.vList [])
  if jc.education_requirements.isEmpty then .ok 0.8
  else if ¬ truthy ce then .ok 0
  else do
    let entries ← pyElems ce
    let (degs, flds) ← educationDFs entries
    let hits := (jc.education_requirements.filter (eduReqMatchB degs flds)).length
    .ok ((hits : ℚ) / (max jc.education_requirements.length 1 : ℕ))

/-- `EducationSimilarityMetric.calculate`: exceptions fall back to 0.0. -/
def education_calculate (c : PyDict) (jc : JobContext) : ℚ :=
  (education_calculate_body c jc).toOption.getD 0

theorem education_calculate_bounds (c : PyDict) (jc : JobContext) :
    0 ≤ education_calculate c jc ∧ education_calculate c jc ≤ 1 := by
  unfold education_calculate education_calculate_body
  dsimp only
  split
  · simp [Except.toOption]; norm_num
  · split
    · simp [Except.toOption]
    · cases hel : pyElems (pyOr (dgetd c "education" (.vList [])) (.vList [])) with
      | error e => simp [Except.toOption, bind, Except.bind, hel]
      | ok entries =>
        simp only [bind, Except.bind, hel]
        cases hdf : educationDFs entries with
        | error e => simp [Except.toOption, hdf]
        | ok dfs =>
          simp only [hdf, Except.toOption, Option.getD]
          constructor
          · apply div_nonneg
            · positivity
            · positivity
          · rw [div_le_one (by positivity)]
            have hle : (jc.education_requirements.filter (eduReqMatchB dfs.1 dfs.2)).length ≤
                jc.education_requirements.length := List.length_filter_le _ _
            have : jc.education_requirements.length ≤
                max jc.education_requirements.length 1 := Nat.le_max_left _ _
            exact_mod_cast Nat.le_trans hle this

/-! ### Language metric (`src/similarity_engine/language_similarity.py`) -/

/-- Candidate language extraction loop: each entry yields
`(language, proficiency)` lower-cased; bare strings get proficiency
"fluent". -/
def collectCandLangs : List PyVal → Except Err (List (String × String))
  | [] => .ok []
  | e :: rest => do
      let cur ← match e with
        | .vDict fs => do
            let n ← pyLowerE (dgetd fs "language" (.vStr ""))
            let p ← pyLowerE (dgetd fs "proficiency" (.vStr ""))
            if n ≠ "" then .ok [(n, p)] else .ok []
        | .vStr s => .ok [(strLower s, "fluent")]
        | _ => .ok []
      let r ← collectCandLangs rest
      .ok (cur ++ r)

/-- `LanguageSimilarityMetric._extract_candidate_languages`. -/
def extract_candidate_languages (c : PyDict) : Except Err (List (String × String)) := do
  let entries ← pyElems (pyOr (dgetd c "languages" (.vList [])) (.vList []))
  collectCandLangs entries

/-- Job-side language extraction loop body: pairs become
`(language, required_level)` with `required_level` defaulting through
`level`, then `proficiency`, then "basic". -/
def collectJobLangs : List PyVal → Except Err (List (String × String))
  | [] => .ok []
  | e :: rest => do
      let cur ← match e with
        | .vDict fs => do
            let n ← pyLowerE (dgetd fs "language" (.vStr ""))
            let lv ← pyLowerE (dgetd fs "level" (.vStr ""))
            let lvl ← if lv ≠ "" then .ok lv
              else pyLowerE (dgetd fs "proficiency" (.vStr ""))
            if n ≠ "" then .ok [(n, if lvl ≠ "" then lvl else "basic")]
            else .ok []
        | .vStr s => .ok [(strLower s, "basic")]
        | _ => .ok []
      let r ← collectJobLangs rest
      .ok (cur ++ r)

/-- `LanguageSimilarityMetric.extract_job_required_languages`. -/
def extract_job_required_languages (job : PyDict) : Except Err (List (String × String)) := do
  let e1 ← pyElems (pyOr (dgetd job "required_languages" (.vList [])) (.vList []))
  let l1 ← collectJobLangs e1
  let e2 ← pyElems (pyOr (dgetd job "languages" (.vList [])) (.vList []))
  let l2 ← collectJobLangs e2
  let e3 ← pyElems (pyOr (dgetd job "language_requirements" (.vList [])) (.vList []))
  let l3 ← collectJobLangs e3
  .ok (l1 ++ l2 ++ l3)

/-- The fixed proficiency ordinal map, defaulting to 1 for unknown labels. -/
def proficiencyLevel (s : String) : ℕ :=
  if s = "basic" ∨ s = "elementary" ∨ s = "beginner" then 1
  else if s = "intermediate" ∨ s = "conversational" then 2
  else if s = "advanced" then 3
  else if s = "fluent" then 4
  else if s = "native" ∨ s = "bilingual" then 5
  else 1

/-- `LanguageSimilarityMetric._calculate_single_language_match`. -/
def single_language_match (req : String × String) (cls : List (String × String)) : ℚ :=
  let reqScore : ℕ := proficiencyLevel req.2
  cls.foldl (fun best cl =>
    let ns := ratio req.1 cl.1
    if (0.8 : ℚ) ≤ ns then
      let cs : ℕ := proficiencyLevel cl.2
      let pm : ℚ := if reqScore ≤ cs then 1 else (cs : ℚ) / (reqScore : ℚ)
      max best (ns * pm)
    else best) 0

theorem proficiencyLevel_pos (s : String) : 1 ≤ proficiencyLevel s := by
  unfold proficiencyLevel
  split
  · omega
  · split
    · omega
    · split
      · omega
      · split
        · omega
        · split <;> omega

theorem single_language_match_bounds (req : String × String) (cls : List (String × String)) :
    0 ≤ single_language_match req cls ∧ single_language_match req cls ≤ 1 := by
  unfold single_language_match
  dsimp only
  have key : ∀ (l : List (String × String)) (acc : ℚ), 0 ≤ acc → acc ≤ 1 →
      0 ≤ l.foldl (fun best cl =>
        let ns := ratio req.1 cl.1
        if (0.8 : ℚ) ≤ ns then
          let cs : ℕ := proficiencyLevel cl.2
          let pm : ℚ := if proficiencyLevel req.2 ≤ cs then 1
            else (cs : ℚ) / (proficiencyLevel req.2 : ℚ)
          max best (ns * pm)
        else best) acc ∧
      l.foldl (fun best cl =>
        let ns := ratio req.1 cl.1
        if (0.8 : ℚ) ≤ ns then
          let cs : ℕ := proficiencyLevel cl.2
          let pm : ℚ := if proficiencyLevel req.2 ≤ cs then 1
            else (cs : ℚ) / (proficiencyLevel req.2 : ℚ)
          max best (ns * pm)
        else best) acc ≤ 1 := by
    intro l
    induction l with
    | nil => intro acc h0 h1; exact ⟨h0, h1⟩
    | cons cl rest ih =>
      intro acc h0 h1
      simp only [List.foldl_cons]
      apply ih
      · dsimp only
        split
        · apply le_max_of_le_left h0
        · exact h0
      · dsimp only
        split
        · rename_i hns
          apply max_le h1
          have hr0 := ratio_nonneg req.1 cl.1
          have hr1 := ratio_le_one req.1 cl.1
          have hpm0 : (0:ℚ) ≤ (if proficiencyLevel req.2 ≤ proficiencyLevel cl.2 then (1:ℚ)
              else (proficiencyLevel cl.2 : ℚ) / (proficiencyLevel req.2 : ℚ)) := by
            split
            · norm_num
            · apply div_nonneg <;> positivity
          have hpm1 : (if proficiencyLevel req.2 ≤ proficiencyLevel cl.2 then (1:ℚ)
              else (proficiencyLevel cl.2 : ℚ) / (proficiencyLevel req.2 : ℚ)) ≤ 1 := by
            split
            · norm_num
            · rename_i hlt
              push_neg at hlt
              rw [div_le_one (by
                have := proficiencyLevel_pos req.2
                positivity)]
              exact_mod_cast le_of_lt hlt
          calc ratio req.1 cl.1 *
                (if proficiencyLevel req.2 ≤ proficiencyLevel cl.2 then (1:ℚ)
                  else (proficiencyLevel cl.2 : ℚ) / (proficiencyLevel req.2 : ℚ)) ≤
              1 * 1 := by
                apply mul_le_mul hr1 hpm1 hpm0 (by norm_num)
          _ = 1 := by norm_num
        · exact h1
  exact key cls 0 (by norm_num) (by norm_num)

/-- Body of `LanguageSimilarityMetric.calculate`. -/
def language_calculate_body (c : PyDict) (jc : JobContext) : Except Err ℚ := do
  let cls ← extract_candidate_languages c
  if jc.required_languages.isEmpty then .ok 0.9
  else if cls.isEmpty then .ok 0
  else
    let total := (jc.required_languages.map (fun r => single_language_match r cls)).sum
    .ok (min (total / (max jc.required_languages.length 1 : ℕ)) 1)

/-- `LanguageSimilarityMetric.calculate`: exceptions fall back to 0.5. -/
def language_calculate (c : PyDict) (jc : JobContext) : ℚ :=
  (language_calculate_body c jc).toOption.getD 0.5

theorem language_calculate_bounds (c : PyDict) (jc : JobContext) :
    0 ≤ language_calculate c jc ∧ language_calculate c jc ≤ 1 := by
  unfold language_calculate language_calculate_body
  cases hex : extract_candidate_languages c with
  | error e => simp [Except.toOption, bind, Except.bind, hex]; norm_num
  | ok cls =>
    simp only [bind, Except.bind, hex]
    split
    · simp [Except.toOption]; norm_num
    · split
      · simp [Except.toOption]
      · simp only [Except.toOption, Option.getD]
        constructor
        · apply le_min
          · apply div_nonneg
            · apply List.sum_nonneg
              intro x hx
              rcases List.mem_map.mp hx with ⟨r, _, hr⟩
              rw [← hr]
              exact (single_language_match_bounds r cls).1
            · positivity
          · norm_num
        · exact min_le_right _ _

/-! ### Seniority metric (`src/backend/similarity_engine/seniority_similarity.py`) -/

/-- The fixed seniority band table. -/
def seniorityBand (s : String) : Option (ℤ × ℤ) :=
  if s = "entry-level" then some (0, 2)
  else if s = "junior" then some (0, 3)
  else if s = "mid-level" then some (3, 7)
  else if s = "senior" then some (7, 15)
  else if s = "executive" then some (15, 100)
  else if s = "lead" then some (5, 100)
  else if s = "principal" then some (10, 100)
  else none

/-- Body of `SenioritySimilarityMetric.calculate`. -/
def seniority_calculate_body (c : PyDict) (jc : JobContext) : Except Err ℚ := do
  let cy ← toIntE (pyOr (dgetd c "years_of_experience" (.vInt 0)) (.vInt 0))
  let js := strLower jc.seniority_level
  let jmin := jc.min_years_experience
  match seniorityBand js with
  | some (mn, mx) =>
      if mn ≤ cy ∧ cy ≤ mx then .ok 1
      else if cy < mn then .ok (max 0.3 ((cy : ℚ) / (max mn 1 : ℤ)))
      else .ok (max 0.7 (1 - ((cy : ℚ) - (mx : ℚ)) * 0.05))
  | none =>
      if 0 < jmin then
        (if jmin ≤ cy then .ok 1 else .ok (max 0.3 ((cy : ℚ) / (jmin : ℚ))))
      else .ok 0.8

/-- `SenioritySimilarityMetric.calculate`: exceptions fall back to 0.8. -/
def seniority_calculate (c : PyDict) (jc : JobContext) : ℚ :=
  (seniority_calculate_body c jc).toOption.getD 0.8

theorem seniority_calculate_bounds (c : PyDict) (jc : JobContext) :
    0 ≤ seniority_calculate c jc ∧ seniority_calculate c jc ≤ 1 := by
  unfold seniority_calculate seniority_calculate_body
  cases hcy : toIntE (pyOr (dgetd c "years_of_experience" (.vInt 0)) (.vInt 0)) with
  | error e => simp [Except.toOption, bind, Except.bind, hcy]; norm_num
  | ok cy =>
    simp only [bind, Except.bind, hcy]
    cases hband : seniorityBand (strLower jc.seniority_level) with
    | some p =>
      obtain ⟨mn, mx⟩ := p
      simp only [hband]
      split
      · simp [Except.toOption]
      · rename_i hin
        split
        · rename_i hlt
          simp only [Except.toOption, Option.getD]
          constructor
          · apply le_max_of_le_left; norm_num
          · apply max_le
            · norm_num
            · rw [div_le_one (by
                have : (1:ℤ) ≤ max mn 1 := le_max_right _ _
                exact_mod_cast lt_of_lt_of_le Int.zero_lt_one this)]
              have hcy_lt : cy < mn := hlt
              have : (mn : ℚ) ≤ ((max mn 1 : ℤ) : ℚ) := by
                exact_mod_cast le_max_left mn 1
              have hc : (cy : ℚ) < (mn : ℚ) := by exact_mod_cast hcy_lt
              linarith
        · rename_i hge
          push_neg at hge
          simp only [Except.toOption, Option.getD]
          constructor
          · apply le_max_of_le_left; norm_num
          · apply max_le
            · norm_num
            · -- above the band: cy ≥ mx + 1 as integers
              have hcy_gt : mx < cy := by
                rcases not_and_or.mp hin with h | h
                · omega
                · push_neg at h; exact h
              have h1 : (mx : ℚ) + 1 ≤ (cy : ℚ) := by exact_mod_cast hcy_gt
              linarith
    | none =>
      simp only [hband]
      split
      · rename_i hjm
        split
        · simp [Except.toOption]
        · rename_i hlt
          push_neg at hlt
          simp only [Except.toOption, Option.getD]
          constructor
          · apply le_max_of_le_left; norm_num
          · apply max_le
            · norm_num
            · rw [div_le_one (by exact_mod_cast hjm)]
              have : (cy : ℚ) < (jc.min_years_experience : ℚ) := by exact_mod_cast hlt
              linarith
      · simp [Except.toOption]; norm_num

/-! ### Semantic metric (`src/similarity_engine/semantic_similarity.py`) -/

/-- Body of `SemanticSimilarityMetric.calculate`: a fresh one-document index
over the job summary is queried with the candidate summary. -/
def semantic_calculate_body (emb : EmbOracle) (c : PyDict) (jc : JobContext) :
    Except Err ℚ :=
  let sv := (dget c "summary").getD .vNone
  if ¬ truthy sv ∨ jc.job_summary = "" then .ok 0.5
  else do
    let q ← asStrE sv
    let d := emb q jc.job_summary
    .ok (min (max 0 (1 - d / 2)) 1)

/-- `SemanticSimilarityMetric.calculate`: exceptions fall back to 0.5. -/
def semantic_calculate (emb : EmbOracle) (c : PyDict) (jc : JobContext) : ℚ :=
  (semantic_calculate_body emb c jc).toOption.getD 0.5

theorem semantic_calculate_bounds (emb : EmbOracle) (c : PyDict) (jc : JobContext) :
    0 ≤ semantic_calculate emb c jc ∧ semantic_calculate emb c jc ≤ 1 := by
  unfold semantic_calculate semantic_calculate_body
  dsimp only
  split
  · simp [Except.toOption]; norm_num
  · cases hs : asStrE ((dget c "summary").getD .vNone) with
    | error e => simp [Except.toOption, bind, Except.bind, hs]; norm_num
    | ok q =>
      simp only [bind, Except.bind, hs, Except.toOption, Option.getD]
      constructor
      · apply le_min
        · apply le_max_left
        · norm_num
      · exact min_le_right _ _

/-! ### Experience metric (`src/backend/similarity_engine/experience_similarity.py`)

The lazily built vector store is threaded explicitly: each function takes the
current `vector_store` contents (the stored document text, or `none`) and
returns the possibly updated contents, modelling the in-place mutation of the
shared `JobContext`.  `calculate` has no top-level `try/except`; only
`_calculate_responsibility_similarity` is guarded. -/

/-- Body of `ExperienceSimilarityMetric._calculate_responsibility_similarity`
(the guarded part). -/
def respSimBody (emb : EmbOracle) (e : PyDict) (respText : String)
    (vs : Option String) : Except Err (ℚ × Option String) := do
  let crv := dgetd e "responsibilities" (.vList [])
  if ¬ truthy crv then .ok (0, vs)
  else do
    let txt ← joinSpaceE crv
    if respText = "" then .ok (0, vs)
    else
      let doc := vs.getD ("Job requirements: " ++ respText)
      let d := emb txt doc
      .ok (min (max 0 (1 - d / 2)) 1, some doc)

/-- `_calculate_responsibility_similarity`: exceptions fall back to 0.0 (they
can only occur before the store is built, so the store is left unchanged). -/
def respSim (emb : EmbOracle) (e : PyDict) (respText : String)
    (vs : Option String) : ℚ × Option String :=
  match respSimBody emb e respText vs with
  | .ok r => r
  | .error _ => (0, vs)

/-- `ExperienceSimilarityMetric._calculate_position_relevance` (unguarded:
a non-string job title raises `AttributeError`). -/
def position_relevance (emb : EmbOracle) (e : PyDict) (jd : PyDict)
    (respText : String) (vs : Option String) : Except Err (ℚ × Option String) := do
  let et ← pyLowerE (dgetd e "job_title" (.vStr ""))
  let jt ← pyLowerE (dgetd jd "job_title" (.vStr ""))
  let ts := if et ≠ "" ∧ jt ≠ "" then ratio et jt else 0
  let r := respSim emb e respText vs
  .ok (min (ts * 0.6 + r.1 * 0.4) 1, r.2)

/-- The position loop of `_calculate_experience_relevance`: dict entries
contribute their relevance, other entries contribute nothing. -/
def relFold (emb : EmbOracle) (jd : PyDict) (respText : String) :
    Option String → List PyVal → Except Err (ℚ × Option String)
  | vs, [] => .ok (0, vs)
  | vs, e :: rest =>
    match e with
    | .vDict fs => do
        let pr ← position_relevance emb fs jd respText vs
        let tot ← relFold emb jd respText pr.2 rest
        .ok (pr.1 + tot.1, tot.2)
    | _ => relFold emb jd respText vs rest

/-- `ExperienceSimilarityMetric._calculate_experience_relevance`. -/
def experience_relevance (emb : EmbOracle) (c : PyDict) (jc : JobContext) :
    Except Err (ℚ × Option String) := do
  let cev := pyOr (dgetd c "experience" (.vList [])) (.vList [])
  if ¬ truthy cev then .ok (0.3, jc.vector_store)
  else do
    let entries ← pyElems cev
    let r ← relFold emb jc.job_data jc.job_responsibilities_text jc.vector_store entries
    .ok (r.1 / (max entries.length 1 : ℕ), r.2)

/-- The years component of `ExperienceSimilarityMetric.calculate`
(lines 25–33): `max_preferred` is tested for Python truthiness, so
`some 0` behaves like `none`. -/
def yearsScore (cy minR : ℤ) (maxP : Option ℤ) : ℚ :=
  if minR ≤ cy then
    match maxP with
    | some m =>
        if m ≠ 0 then
          (if cy ≤ m then 1 else max 0.8 (1 - ((cy : ℚ) - (m : ℚ)) * 0.05))
        else 1
    | none => 1
  else max 0 ((cy : ℚ) / (max minR 1 : ℤ))

/-- `ExperienceSimilarityMetric.calculate`.  No top-level exception handler:
a malformed `years_of_experience` or job title propagates. -/
def experience_calculate (emb : EmbOracle) (c : PyDict) (jc : JobContext) :
    Except Err (ℚ × Option String) := do
  let cy ← toIntE (pyOr (dgetd c "years_of_experience" (.vInt 0)) (.vInt 0))
  let ys := yearsScore cy jc.min_years_experience jc.max_years_experience
  let r ← experience_relevance emb c jc
  .ok (ys * 0.6 + r.1 * 0.4, r.2)

theorem yearsScore_bounds (cy minR : ℤ) (maxP : Option ℤ) :
    0 ≤ yearsScore cy minR maxP ∧ yearsScore cy minR maxP ≤ 1 := by
  unfold yearsScore
  split
  · rename_i hge
    cases maxP with
    | none => norm_num
    | some m =>
      dsimp only
      split
      · split
        · norm_num
        · rename_i hm hgt
          push_neg at hgt
          constructor
          · apply le_max_of_le_left; norm_num
          · apply max_le
            · norm_num
            · have : (m : ℚ) + 1 ≤ (cy : ℚ) := by exact_mod_cast hgt
              linarith
      · norm_num
  · rename_i hlt
    push_neg at hlt
    constructor
    · apply le_max_left
    · apply max_le
      · norm_num
      · have hd : (0:ℚ) < ((max minR 1 : ℤ) : ℚ) := by
          have : (1:ℤ) ≤ max minR 1 := le_max_right _ _
          exact_mod_cast lt_of_lt_of_le Int.zero_lt_one this
        rw [div_le_one hd]
        have h1 : (cy : ℚ) < (minR : ℚ) := by exact_mod_cast hlt
        have h2 : (minR : ℚ) ≤ ((max minR 1 : ℤ) : ℚ) := by
          exact_mod_cast le_max_left minR 1
        linarith

/-- Once the vector store is set it is never changed; when unset it can only
become the job-requirements document. -/
def vsStep (rt : String) (vs vs' : Option String) : Prop :=
  vs' = vs ∨ (vs = none ∧ vs' = some ("Job requirements: " ++ rt))

theorem respSimBody_props (emb : EmbOracle) (e : PyDict) (rt : String)
    (vs : Option String) {r : ℚ × Option String}
    (h : respSimBody emb e rt vs = .ok r) :
    (0 ≤ r.1 ∧ r.1 ≤ 1) ∧ vsStep rt vs r.2 := by
  unfold respSimBody at h
  dsimp only at h
  split at h
  · rw [Except.ok.injEq] at h
    rw [← h]
    exact ⟨⟨le_refl 0, by norm_num⟩, Or.inl rfl⟩
  · cases hj : joinSpaceE (dgetd e "responsibilities" (.vList [])) with
    | error er => rw [hj] at h; simp [bind, Except.bind] at h
    | ok txt =>
      rw [hj] at h
      simp only [bind, Except.bind] at h
      split at h
      · rw [Except.ok.injEq] at h
        rw [← h]
        exact ⟨⟨le_refl 0, by norm_num⟩, Or.inl rfl⟩
      · rw [Except.ok.injEq] at h
        rw [← h]
        refine ⟨⟨?_, ?_⟩, ?_⟩
        · apply le_min
          · apply le_max_left
          · norm_num
        · exact min_le_right _ _
        · cases vs with
          | none => right; simp
          | some d => left; simp

theorem respSim_bounds (emb : EmbOracle) (e : PyDict) (rt : String) (vs : Option String) :
    0 ≤ (respSim emb e rt vs).1 ∧ (respSim emb e rt vs).1 ≤ 1 := by
  unfold respSim
  cases hb : respSimBody emb e rt vs with
  | error er => exact ⟨le_refl 0, by norm_num⟩
  | ok r => exact (respSimBody_props emb e rt vs hb).1

theorem respSim_vs (emb : EmbOracle) (e : PyDict) (rt : String) (vs : Option String) :
    vsStep rt vs (respSim emb e rt vs).2 := by
  unfold respSim
  cases hb : respSimBody emb e rt vs with
  | error er => exact Or.inl rfl
  | ok r => exact (respSimBody_props emb e rt vs hb).2

theorem vsStep_trans {rt : String} {a b c : Option String}
    (h1 : vsStep rt a b) (h2 : vsStep rt b c) : vsStep rt a c := by
  rcases h1 with h1 | ⟨ha, hb⟩
  · rcases h2 with h2 | ⟨hb, hc⟩
    · left; rw [h2, h1]
    · right; exact ⟨h1 ▸ hb, hc⟩
  · rcases h2 with h2 | ⟨hb', hc⟩
    · right; exact ⟨ha, h2 ▸ hb⟩
    · rw [hb] at hb'; cases hb'

theorem position_relevance_props (emb : EmbOracle) (e jd : PyDict) (rt : String)
    (vs : Option String) {r : ℚ × Option String}
    (h : position_relevance emb e jd rt vs = .ok r) :
    (0 ≤ r.1 ∧ r.1 ≤ 1) ∧ vsStep rt vs r.2 := by
  unfold position_relevance at h
  cases het : pyLowerE (dgetd e "job_title" (.vStr "")) with
  | error er => rw [het] at h; simp [bind, Except.bind] at h
  | ok et =>
    rw [het] at h
    cases hjt : pyLowerE (dgetd jd "job_title" (.vStr "")) with
    | error er => rw [hjt] at h; simp [bind, Except.bind] at h
    | ok jt =>
      rw [hjt] at h
      simp only [bind, Except.bind, Except.ok.injEq] at h
      have hts0 : (0:ℚ) ≤ (if et ≠ "" ∧ jt ≠ "" then ratio et jt else 0) := by
        split
        · exact ratio_nonneg et jt
        · norm_num
      have hrs := respSim_bounds emb e rt vs
      constructor
      · rw [← h]
        constructor
        · apply le_min
          · have : (0:ℚ) ≤ (if et ≠ "" ∧ jt ≠ "" then ratio et jt else 0) * 0.6 := by
              positivity
            nlinarith [hrs.1]
          · norm_num
        · exact min_le_right _ _
      · rw [← h]
        exact respSim_vs emb e rt vs

theorem relFold_props (emb : EmbOracle) (jd : PyDict) (rt : String) :
    ∀ (l : List PyVal) (vs : Option String) (r : ℚ × Option String),
      relFold emb jd rt vs l = .ok r →
      (0 ≤ r.1 ∧ r.1 ≤ l.length) ∧ vsStep rt vs r.2 := by
  intro l
  induction l with
  | nil =>
    intro vs r h
    simp only [relFold, Except.ok.injEq] at h
    rw [← h]
    exact ⟨⟨le_refl 0, by simp⟩, Or.inl rfl⟩
  | cons e rest ih =>
    intro vs r h
    cases e with
    | vDict fs =>
      simp only [relFold] at h
      cases hpr : position_relevance emb fs jd rt vs with
      | error er => rw [hpr] at h; simp [bind, Except.bind] at h
      | ok pr =>
        rw [hpr] at h
        simp only [bind, Except.bind] at h
        cases hrest : relFold emb jd rt pr.2 rest with
        | error er => rw [hrest] at h; simp at h
        | ok tot =>
          rw [hrest] at h
          simp only [Except.ok.injEq] at h
          have h1 := position_relevance_props emb fs jd rt vs hpr
          have h2 := ih pr.2 tot hrest
          rw [← h]
          refine ⟨⟨?_, ?_⟩, vsStep_trans h1.2 h2.2⟩
          · have := h1.1.1
            have := h2.1.1
            dsimp only
            linarith
          · dsimp only
            simp only [List.length_cons]
            push_cast
            have := h1.1.2
            have := h2.1.2
            linarith
    | vNone =>
      simp only [relFold] at h
      have := ih vs r h
      exact ⟨⟨this.1.1, by simp only [List.length_cons]; push_cast; linarith [this.1.2]⟩, this.2⟩
    | vBool b =>
      simp only [relFold] at h
      have := ih vs r h
      exact ⟨⟨this.1.1, by simp only [List.length_cons]; push_cast; linarith [this.1.2]⟩, this.2⟩
    | vInt n =>
      simp only [relFold] at h
      have := ih vs r h
      exact ⟨⟨this.1.1, by simp only [List.length_cons]; push_cast; linarith [this.1.2]⟩, this.2⟩
    | vStr s =>
      simp only [relFold] at h
      have := ih vs r h
      exact ⟨⟨this.1.1, by simp only [List.length_cons]; push_cast; linarith [this.1.2]⟩, this.2⟩
    | vList xs =>
      simp only [relFold] at h
      have := ih vs r h
      exact ⟨⟨this.1.1, by simp only [List.length_cons]; push_cast; linarith [this.1.2]⟩, this.2⟩

theorem experience_relevance_props (emb : EmbOracle) (c : PyDict) (jc : JobContext)
    {r : ℚ × Option String} (h : experience_relevance emb c jc = .ok r) :
    (0 ≤ r.1 ∧ r.1 ≤ 1) ∧ vsStep jc.job_responsibilities_text jc.vector_store r.2 := by
  unfold experience_relevance at h
  dsimp only at h
  cases htr : truthy (pyOr (dgetd c "experience" (.vList [])) (.vList [])) with
  | false =>
    rw [htr] at h
    simp only [Bool.false_eq_true, not_false_eq_true, if_pos, Except.ok.injEq] at h
    rw [← h]
    exact ⟨⟨by norm_num, by norm_num⟩, Or.inl rfl⟩
  | true =>
    rw [htr] at h
    rw [if_neg (by simp)] at h
    cases hel : pyElems (pyOr (dgetd c "experience" (.vList [])) (.vList [])) with
    | error er => rw [hel] at h; simp [bind, Except.bind] at h
    | ok entries =>
      rw [hel] at h
      simp only [bind, Except.bind] at h
      cases hrf : relFold emb jc.job_data jc.job_responsibilities_text jc.vector_store entries with
      | error er => rw [hrf] at h; simp at h
      | ok tot =>
        rw [hrf] at h
        simp only [Except.ok.injEq] at h
        have hp := relFold_props emb jc.job_data jc.job_responsibilities_text entries
          jc.vector_store tot hrf
        rw [← h]
        refine ⟨⟨?_, ?_⟩, hp.2⟩
        · dsimp only
          apply div_nonneg hp.1.1
          positivity
        · dsimp only
          rw [div_le_one (by positivity)]
          have h1 := hp.1.2
          have h2 : (entries.length : ℚ) ≤ ((max entries.length 1 : ℕ) : ℚ) := by
            exact_mod_cast Nat.le_max_left entries.length 1
          linarith

theorem experience_calculate_props (emb : EmbOracle) (c : PyDict) (jc : JobContext)
    {r : ℚ × Option String} (h : experience_calculate emb c jc = .ok r) :
    (0 ≤ r.1 ∧ r.1 ≤ 1) ∧ vsStep jc.job_responsibilities_text jc.vector_store r.2 := by
  unfold experience_calculate at h
  cases hcy : toIntE (pyOr (dgetd c "years_of_experience" (.vInt 0)) (.vInt 0)) with
  | error er => rw [hcy] at h; simp [bind, Except.bind] at h
  | ok cy =>
    rw [hcy] at h
    cases hrel : experience_relevance emb c jc with
    | error er => rw [hrel] at h; simp [bind, Except.bind] at h
    | ok rel =>
      rw [hrel] at h
      simp only [bind, Except.bind, Except.ok.injEq] at h
      have hy := yearsScore_bounds cy jc.min_years_experience jc.max_years_experience
      have hr := experience_relevance_props emb c jc hrel
      rw [← h]
      refine ⟨⟨?_, ?_⟩, hr.2⟩
      · dsimp only
        nlinarith [hy.1, hr.1.1]
      · dsimp only
        nlinarith [hy.2, hr.1.2]

/-! ### Scoring orchestrator
(`AdvancedSimilarityEngine._calculate_similarity_with_context`) -/

/-- The default weight map. -/
def default_weights : List (String × ℚ) :=
  [("skills", 0.30), ("experience", 0.25), ("education", 0.15), ("language", 0.03),
   ("certification", 0.02), ("semantic", 0.05), ("seniority", 0.02)]

/-- `weights[k]`: raises `KeyError` when the key is absent. -/
def wget (w : List (String × ℚ)) (k : String) : Except Err ℚ :=
  match (w.find? (fun p => p.1 == k)).map (·.2) with
  | some q => .ok q
  | none => .error (.keyError k)

/-- `sum(weights.values())`. -/
def wsum (w : List (String × ℚ)) : ℚ := (w.map (·.2)).sum

/-- `AdvancedSimilarityEngine._create_empty_score`. -/
def create_empty_score : SimilarityScore :=
  { overall_score := 0, skills_score := 0, experience_score := 0, education_score := 0,
    semantic_similarity := 0, seniority_match := 0, detailed_breakdown := none }

/-- `AdvancedSimilarityEngine._calculate_similarity_with_context`.  The
candidate store is a lookup collaborator `dbc`; a missing (or falsy)
candidate yields the empty score.  The weight accesses happen after the
metric calls and in the order of the weighted-sum expression, so a missing
key raises `KeyError` there; the final division raises `ZeroDivisionError`
when the supplied weights sum to zero. -/
def calculate_similarity_with_context (dbc : ℤ → Option PyDict) (emb : EmbOracle)
    (candidate_id : ℤ) (jc : JobContext) (weightsOpt : Option (List (String × ℚ))) :
    Except Err (SimilarityScore × JobContext) :=
  let weights := weightsOpt.getD default_weights
  match dbc candidate_id with
  | none => .ok (create_empty_score, jc)
  | some cand =>
    if cand.isEmpty then .ok (create_empty_score, jc)
    else do
      let skills_score := skills_calculate cand jc
      let er ← experience_calculate emb cand jc
      let jc' := { jc with vector_store := er.2 }
      let experience_score := er.1
      let education_score := education_calculate cand jc'
      let language_score := language_calculate cand jc'
      let certification_score := certification_calculate cand jc'
      let semantic_score := semantic_calculate emb cand jc'
      let seniority_score := seniority_calculate cand jc'
      let ws ← wget weights "skills"
      let we ← wget weights "experience"
      let wed ← wget weights "education"
      let wsem ← wget weights "semantic"
      let wsen ← wget weights "seniority"
      let wl ← wget weights "language"
      let wc ← wget weights "certification"
      let total := wsum weights
      if total = 0 then .error .zeroDivisionError
      else
        let overall := (skills_score * ws + experience_score * we + education_score * wed +
          semantic_score * wsem + seniority_score * wsen + language_score * wl +
          certification_score * wc) / total
        .ok ({ overall_score := round4 overall,
               skills_score := round4 skills_score,
               experience_score := round4 experience_score,
               education_score := round4 education_score,
               semantic_similarity := round4 semantic_score,
               seniority_match := round4 seniority_score,
               detailed_breakdown := some
                 { certification_score := round4 certification_score,
                   weights_used := weights, job_id := jc.job_id, cached := true } }, jc')

/-! ### Job context builder and cache (`AdvancedSimilarityEngine.preprocess_job`) -/

/-- `ExperienceSimilarityMetric.extract_job_responsibilities_and_description`. -/
def extract_job_responsibilities_and_description (job : PyDict) : Except Err String := do
  let p1 := dgetd job "job_description" (.vStr "")
  let parts1 : List PyVal := if truthy p1 then [p1] else []
  let p2 := dgetd job "job_summary" (.vStr "")
  let parts2 : List PyVal := if truthy p2 then [p2] else []
  let p3 := dgetd job "responsibilities" (.vList [])
  let parts3 ← if truthy p3 then pyElems p3 else .ok []
  let strs ← strListOfPyE (parts1 ++ parts2 ++ parts3)
  .ok (strTrim (String.intercalate " " strs))

/-- Elements of a pydantic `List[str]` field; non-string content fails
validation (modelled as `ValueError`). -/
def toStrListE : PyVal → Except Err (List String)
  | .vList xs => strListOfPyE xs
  | _ => .error .valueError

/-- A pydantic `int` field (string-to-int coercion of non-int values is not
modelled). -/
def pydIntE : PyVal → Except Err ℤ
  | .vInt n => .ok n
  | .vBool b => .ok (if b then 1 else 0)
  | _ => .error .valueError

/-- A pydantic `Optional[int]` field. -/
def pydOptIntE : PyVal → Except Err (Option ℤ)
  | .vNone => .ok none
  | .vInt n => .ok (some n)
  | .vBool b => .ok (some (if b then 1 else 0))
  | _ => .error .valueError

/-- A pydantic `str` field. -/
def pydStrE : PyVal → Except Err String
  | .vStr s => .ok s
  | _ => .error .valueError

/-- The `JobContext(...)` construction in `preprocess_job`, field by field in
source order. -/
def build_job_context (job_id : ℤ) (job : PyDict) : Except Err JobContext := do
  let rs ← extract_job_required_skills job
  let rt ← extract_job_responsibilities_and_description job
  let er ← toStrListE (pyOr (dgetd job "education_requirements" (.vList [])) (.vList []))
  let rl ← extract_job_required_languages job
  let rc ← extract_job_required_certifications job
  let mn ← pydIntE (pyOr (dgetd job "min_years_experience" (.vInt 0)) (.vInt 0))
  let mx ← pydOptIntE (dgetd job "max_years_experience" .vNone)
  let sl ← pydStrE (pyOr (dgetd job "seniority_level" (.vStr "")) (.vStr ""))
  let js ← pydStrE (pyOr (dgetd job "job_summary" (.vStr "")) (.vStr ""))
  .ok { job_id := job_id, job_data := job, required_skills := rs,
        job_responsibilities_text := rt, education_requirements := er,
        required_languages := rl, required_certifications := rc,
        min_years_experience := mn, max_years_experience := mx,
        seniority_level := sl, job_summary := js, vector_store := none }

/-- The process-wide job-context cache (`_job_context_cache`). -/
abbrev Cache := List (ℤ × JobContext)

/-- Cache lookup (`job_id in self._job_context_cache`). -/
def clookup : Cache → ℤ → Option JobContext
  | [], _ => none
  | (k, v) :: rest, j => if k = j then some v else clookup rest j

/-- Replace the entry for `j` (the cached object is the same Python object
the engine mutates, so its lazy vector store is visible in the cache). -/
def cacheUpdate : Cache → ℤ → JobContext → Cache
  | [], _, _ => []
  | (k, v) :: rest, j, jc => if k = j then (k, jc) :: rest else (k, v) :: cacheUpdate rest j jc

/-- `AdvancedSimilarityEngine.preprocess_job`: returns the context, the new
cache, and whether the builder actually ran (a successful build).  A job
that cannot be found (or is falsy) raises `ValueError`. -/
def preprocess_job (dbj : ℤ → Option PyDict) (cache : Cache) (job_id : ℤ) :
    Except Err (JobContext × Cache × Bool) :=
  match clookup cache job_id with
  | some jc => .ok (jc, cache, false)
  | none =>
    match dbj job_id with
    | none => .error .valueError
    | some job =>
      if job.isEmpty then .error .valueError
      else
        match build_job_context job_id job with
        | .error e => .error e
        | .ok jc => .ok (jc, (job_id, jc) :: cache, true)

/-- The candidate loop of `calculate_similarity_batch`, threading the shared
(mutable) job context. -/
def batchFold (dbc : ℤ → Option PyDict) (emb : EmbOracle)
    (weightsOpt : Option (List (String × ℚ))) :
    JobContext → List ℤ → Except Err (List SimilarityScore × JobContext)
  | jc, [] => .ok ([], jc)
  | jc, cid :: rest => do
    let r ← calculate_similarity_with_context dbc emb cid jc weightsOpt
    let rs ← batchFold dbc emb weightsOpt r.2 rest
    .ok (r.1 :: rs.1, rs.2)

/-- `AdvancedSimilarityEngine.calculate_similarity_batch`. -/
def calculate_similarity_batch (dbj dbc : ℤ → Option PyDict) (emb : EmbOracle)
    (candidate_ids : List ℤ) (job_id : ℤ) (weightsOpt : Option (List (String × ℚ)))
    (cache : Cache) : Except Err (List SimilarityScore × Cache) := do
  let p ← preprocess_job dbj cache job_id
  let r ← batchFold dbc emb weightsOpt p.1 candidate_ids
  .ok (r.1, cacheUpdate p.2.1 job_id r.2)

/-- `AdvancedSimilarityEngine.clear_cache`: Python's `if job_id:` treats
both `None` and `0` as falsy, so `clear_cache(0)` clears everything. -/
def clear_cache (job_id : Option ℤ) (cache : Cache) : Cache :=
  match job_id with
  | some j => if j ≠ 0 then cache.filter (fun p => p.1 ≠ j) else []
  | none => []

/-- `AdvancedSimilarityEngine.get_cached_job_ids`. -/
def get_cached_job_ids (cache : Cache) : List ℤ := cache.map (·.1)

/-- A sequence of `preprocess_job` calls (the cache survives failed calls
unchanged). -/
def runSeq (dbj : ℤ → Option PyDict) : Cache → List ℤ → Cache
  | c, [] => c
  | c, j :: rest =>
    match preprocess_job dbj c j with
    | .ok r => runSeq dbj r.2.1 rest
    | .error _ => runSeq dbj c rest

/-- How many times the builder actually runs for `j` during a sequence of
`preprocess_job` calls. -/
def buildsFor (dbj : ℤ → Option PyDict) : Cache → List ℤ → ℤ → ℕ
  | _, [], _ => 0
  | c, rq :: rest, j =>
    match preprocess_job dbj c rq with
    | .ok r => (if r.2.2 ∧ rq = j then 1 else 0) + buildsFor dbj r.2.1 rest j
    | .error _ => buildsFor dbj c rest j

/-! ### Inversion of a successful orchestrator run -/

/-- Any successful `_calculate_similarity_with_context` call either hit the
missing/falsy-candidate path or ran the full pipeline; in the latter case the
output is exactly the rounded record built from the metric values. -/
theorem calc_ok_inversion (dbc : ℤ → Option PyDict) (emb : EmbOracle) (cid : ℤ)
    (jc : JobContext) (w : Option (List (String × ℚ))) (s : SimilarityScore)
    (jc' : JobContext)
    (h : calculate_similarity_with_context dbc emb cid jc w = .ok (s, jc')) :
    (s = create_empty_score ∧ jc' = jc) ∨
    (∃ cand er ws we wed wsem wsen wl wc,
      dbc cid = some cand ∧ cand.isEmpty = false ∧
      experience_calculate emb cand jc = .ok er ∧
      jc' = { jc with vector_store := er.2 } ∧
      wget (w.getD default_weights) "skills" = .ok ws ∧
      wget (w.getD default_weights) "experience" = .ok we ∧
      wget (w.getD default_weights) "education" = .ok wed ∧
      wget (w.getD default_weights) "semantic" = .ok wsem ∧
      wget (w.getD default_weights) "seniority" = .ok wsen ∧
      wget (w.getD default_weights) "language" = .ok wl ∧
      wget (w.getD default_weights) "certification" = .ok wc ∧
      wsum (w.getD default_weights) ≠ 0 ∧
      s = { overall_score := round4 ((skills_calculate cand jc * ws + er.1 * we +
              education_calculate cand { jc with vector_store := er.2 } * wed +
              semantic_calculate emb cand { jc with vector_store := er.2 } * wsem +
              seniority_calculate cand { jc with vector_store := er.2 } * wsen +
              language_calculate cand { jc with vector_store := er.2 } * wl +
              certification_calculate cand { jc with vector_store := er.2 } * wc) /
              wsum (w.getD default_weights)),
            skills_score := round4 (skills_calculate cand jc),
            experience_score := round4 er.1,
            education_score := round4 (education_calculate cand { jc with vector_store := er.2 }),
            semantic_similarity := round4 (semantic_calculate emb cand { jc with vector_store := er.2 }),
            seniority_match := round4 (seniority_calculate cand { jc with vector_store := er.2 }),
            detailed_breakdown := some
              { certification_score := round4 (certification_calculate cand { jc with vector_store := er.2 }),
                weights_used := w.getD default_weights, job_id := jc.job_id,
                cached := true } }) := by
  unfold calculate_similarity_with_context at h
  dsimp only at h
  cases hdb : dbc cid with
  | none =>
    rw [hdb] at h
    dsimp only at h
    rw [Except.ok.injEq, Prod.mk.injEq] at h
    exact Or.inl ⟨h.1.symm, h.2.symm⟩
  | some cand =>
    rw [hdb] at h
    dsimp only at h
    by_cases hce : cand.isEmpty
    · rw [if_pos hce] at h
      rw [Except.ok.injEq, Prod.mk.injEq] at h
      exact Or.inl ⟨h.1.symm, h.2.symm⟩
    · rw [if_neg hce] at h
      simp only [bind, Except.bind] at h
      cases hex : experience_calculate emb cand jc with
      | error e => rw [hex] at h; simp at h
      | ok er =>
        rw [hex] at h
        simp only at h
        cases hw1 : wget (w.getD default_weights) "skills" with
        | error e => rw [hw1] at h; simp at h
        | ok ws =>
          rw [hw1] at h
          simp only at h
          cases hw2 : wget (w.getD default_weights) "experience" with
          | error e => rw [hw2] at h; simp at h
          | ok we =>
            rw [hw2] at h
            simp only at h
            cases hw3 : wget (w.getD default_weights) "education" with
            | error e => rw [hw3] at h; simp at h
            | ok wed =>
              rw [hw3] at h
              simp only at h
              cases hw4 : wget (w.getD default_weights) "semantic" with
              | error e => rw [hw4] at h; simp at h
              | ok wsem =>
                rw [hw4] at h
                simp only at h
                cases hw5 : wget (w.getD default_weights) "seniority" with
                | error e => rw [hw5] at h; simp at h
                | ok wsen =>
                  rw [hw5] at h
                  simp only at h
                  cases hw6 : wget (w.getD default_weights) "language" with
                  | error e => rw [hw6] at h; simp at h
                  | ok wl =>
                    rw [hw6] at h
                    simp only at h
                    cases hw7 : wget (w.getD default_weights) "certification" with
                    | error e => rw [hw7] at h; simp at h
                    | ok wc =>
                      rw [hw7] at h
                      simp only at h
                      split at h
                      · simp at h
                      · rename_i htot
                        rw [Except.ok.injEq, Prod.mk.injEq] at h
                        refine Or.inr ⟨cand, er, ws, we, wed, wsem, wsen, wl, wc,
                          rfl, Bool.eq_false_iff.mpr hce, hex, h.2.symm, rfl, rfl,
                          rfl, rfl, rfl, rfl, rfl, htot, ?_⟩
                        rw [← h.1]

/-- The orchestrator only ever changes the `vector_store` field of the
context it is given. -/
theorem calc_frame (dbc : ℤ → Option PyDict) (emb : EmbOracle) (cid : ℤ)
    (jc : JobContext) (w : Option (List (String × ℚ))) (s : SimilarityScore)
    (jc' : JobContext)
    (h : calculate_similarity_with_context dbc emb cid jc w = .ok (s, jc')) :
    jc' = { jc with vector_store := jc'.vector_store } := by
  rcases calc_ok_inversion dbc emb cid jc w s jc' h with ⟨_, hj⟩ | ⟨cand, er, _, _, _, _, _, _, _, _, _, _, hj, _⟩
  · rw [hj]
  · rw [hj]

/-! ### Concrete fixtures used by the per-claim evaluations -/

/-- A trivial job context: no requirements at all. -/
def jc0 : JobContext :=
  { job_id := 0, job_data := [], required_skills := [], job_responsibilities_text := "",
    education_requirements := [], required_languages := [], required_certifications := [],
    min_years_experience := 0, max_years_experience := none, seniority_level := "",
    job_summary := "", vector_store := none }

/-- A trivial embedding oracle (all distances zero). -/
def emb0 : EmbOracle := fun _ _ => 0

/-- A minimal well-formed candidate record. -/
def cand1 : PyDict := [("full_name", .vStr "A")]

/-- A minimal well-formed job record. -/
def job1 : PyDict := [("job_title", .vStr "Engineer")]

/-- A candidate whose `years_of_experience` is a (truthy) string: Python
raises `TypeError` at the `>=` comparison in the Experience metric. -/
def candBadYears : PyDict := [("years_of_experience", .vStr "ten")]

/-- A candidate whose experience entry has a non-string `job_title`: Python
raises `AttributeError` at `.lower()` in `_calculate_position_relevance`,
which is outside the metric's only exception handler. -/
def candBadTitle : PyDict := [("experience", .vList [.vDict [("job_title", .vInt 7)]])]

/-! ### C7 — seniority bands -/

/-- C7: for a job whose seniority level lower-cases to "senior"
(band [7, 15]) and a candidate whose years field reads as the integer `y`,
the Seniority metric returns 1 inside the band, `max 0.3 (y / max 7 1)`
below it, and `max 0.7 (1 - 0.05 * (y - 15))` above it (so 10 ↦ 1,
3 ↦ max 0.3 (3/7), 30 ↦ max 0.7 (1 - 0.05 * 15) = 0.7). -/
theorem C7_seniority_senior_band (c : PyDict) (jc : JobContext) (y : ℤ)
    (hsl : strLower jc.seniority_level = "senior")
    (hy : toIntE (pyOr (dgetd c "years_of_experience" (.vInt 0)) (.vInt 0)) = .ok y) :
    seniority_calculate c jc =
      (if 7 ≤ y ∧ y ≤ 15 then 1
       else if y < 7 then max 0.3 ((y : ℚ) / ((max 7 1 : ℤ) : ℚ))
       else max 0.7 (1 - ((y : ℚ) - (15 : ℚ)) * 0.05)) := by
  unfold seniority_calculate seniority_calculate_body
  rw [hy]
  simp only [bind, Except.bind]
  rw [hsl]
  rw [show seniorityBand "senior" = some (7, 15) from rfl]
  dsimp only
  split_ifs <;> simp [Except.toOption]

/-- C7 witness: a "Senior" job and a 10-year candidate score exactly 1. -/
theorem C7_witness :
    strLower ({ jc0 with seniority_level := "Senior" } : JobContext).seniority_level
        = "senior" ∧
    seniority_calculate [("years_of_experience", .vInt 10)]
        { jc0 with seniority_level := "Senior" } =
      (if 7 ≤ (10:ℤ) ∧ (10:ℤ) ≤ 15 then 1
       else if (10:ℤ) < 7 then max 0.3 (((10:ℤ) : ℚ) / ((max 7 1 : ℤ) : ℚ))
       else max 0.7 ((1:ℚ) - (((10:ℤ) : ℚ) - (15 : ℚ)) * 0.05)) :=
  ⟨by decide, C7_seniority_senior_band [("years_of_experience", .vInt 10)]
    { jc0 with seniority_level := "Senior" } 10 (by decide) rfl⟩

/-! ### C10 — a zero experience maximum acts like no maximum -/

/-- C10: when the job's `max_years_experience` is `None` or `0` (both falsy
in Python), a candidate whose years reach the minimum gets years component
exactly 1: the Experience score is `1 * 0.6 + relevance * 0.4` and no decay
is applied. -/
theorem C10_max_zero_like_absent (emb : EmbOracle) (c : PyDict) (jc : JobContext)
    (y : ℤ) (q : ℚ) (vs : Option String)
    (hmax : jc.max_years_experience = none ∨ jc.max_years_experience = some 0)
    (hy : toIntE (pyOr (dgetd c "years_of_experience" (.vInt 0)) (.vInt 0)) = .ok y)
    (hmin : jc.min_years_experience ≤ y)
    (hok : experience_calculate emb c jc = .ok (q, vs)) :
    yearsScore y jc.min_years_experience jc.max_years_experience = 1 ∧
    ∃ rel, experience_relevance emb c jc = .ok (rel, vs) ∧ q = 1 * 0.6 + rel * 0.4 := by
  have hys : yearsScore y jc.min_years_experience jc.max_years_experience = 1 := by
    unfold yearsScore
    rw [if_pos hmin]
    rcases hmax with hm | hm <;> simp [hm]
  refine ⟨hys, ?_⟩
  unfold experience_calculate at hok
  rw [hy] at hok
  simp only [bind, Except.bind] at hok
  cases hrel : experience_relevance emb c jc with
  | error e => rw [hrel] at hok; simp at hok
  | ok rel =>
    rw [hrel] at hok
    simp only [Except.ok.injEq, Prod.mk.injEq] at hok
    refine ⟨rel.1, ?_, ?_⟩
    · rw [← hok.2]
    · rw [← hok.1, hys]

/-- C10 witness: a 5-year candidate against a no-maximum job: the score is
`1 * 0.6 + 0.3 * 0.4 = 0.72` with years component 1. -/
theorem C10_witness :
    yearsScore 5 jc0.min_years_experience jc0.max_years_experience = 1 ∧
    ∃ rel, experience_relevance emb0 [("years_of_experience", .vInt 5)] jc0 =
        .ok (rel, none) ∧ (0.72 : ℚ) = 1 * 0.6 + rel * 0.4 :=
  C10_max_zero_like_absent emb0 [("years_of_experience", .vInt 5)] jc0 5 0.72 none
    (Or.inl rfl) rfl (by decide) (by with_unfolding_all decide)

/-! ### C9 — cache eviction -/

/-- A two-entry cache used to exhibit the `clear_cache(0)` behaviour. -/
def cacheC9 : Cache := [(0, jc0), (1, { jc0 with job_id := 1 })]

/-- C9 counterexample: `clear_cache` with the non-null argument `0` clears
the whole cache — the unrelated entry for job 1 is removed, refuting the
claim that a non-null argument removes at most its own entry. -/
theorem C9_counterexample :
    clear_cache (some 0) cacheC9 = [] ∧
    clookup (clear_cache (some 0) cacheC9) 1 ≠ clookup cacheC9 1 := by
  constructor
  · rfl
  · rw [show clear_cache (some 0) cacheC9 = [] from rfl]
    simp [clookup, cacheC9]

/-- C9 amended: for a non-null, non-zero `job_id`, `clear_cache` removes at
most the entry for that `job_id` (a no-op when absent) and leaves every
other entry unchanged; for `job_id = 0` — falsy in Python — it clears the
entire cache. -/
theorem C9_amended_clear_cache (cache : Cache) (j : ℤ) (hj : j ≠ 0) :
    clookup (clear_cache (some j) cache) j = none ∧
    (∀ j2, j2 ≠ j → clookup (clear_cache (some j) cache) j2 = clookup cache j2) ∧
    clear_cache (some 0) cache = [] := by
  have hmain : clear_cache (some j) cache = cache.filter (fun p => decide (p.1 ≠ j)) := by
    unfold clear_cache
    dsimp only
    rw [if_pos hj]
  refine ⟨?_, ?_, rfl⟩
  · rw [hmain]
    clear hmain
    induction cache with
    | nil => rfl
    | cons p rest ih =>
      by_cases hp : p.1 = j
      · rw [List.filter_cons, if_neg (by simp [hp])]
        exact ih
      · rw [List.filter_cons, if_pos (by simp [hp])]
        simp only [clookup]
        rw [if_neg hp]
        exact ih
  · intro j2 hj2
    rw [hmain]
    clear hmain
    induction cache with
    | nil => rfl
    | cons p rest ih =>
      by_cases hp : p.1 = j
      · rw [List.filter_cons, if_neg (by simp [hp])]
        have h1 : clookup (p :: rest) j2 = clookup rest j2 := by
          simp only [clookup]
          rw [if_neg (fun hc => hj2 (by rw [← hc, hp]))]
        rw [h1]
        exact ih
      · rw [List.filter_cons, if_pos (by simp [hp])]
        by_cases hpj2 : p.1 = j2
        · simp [clookup, hpj2]
        · simp only [clookup]
          rw [if_neg hpj2, if_neg hpj2]
          exact ih

/-- C9 witness: evicting job 1 from the two-entry cache removes exactly its
entry and keeps job 0. -/
theorem C9_witness :
    clookup (clear_cache (some 1) cacheC9) 1 = none ∧
    (∀ j2, j2 ≠ 1 → clookup (clear_cache (some 1) cacheC9) j2 = clookup cacheC9 j2) ∧
    clear_cache (some 0) cacheC9 = [] :=
  C9_amended_clear_cache cacheC9 1 (by decide)

/-! ### C3 — defensive metrics -/

/-- C3 counterexample: both malformed candidate fields named by the claim
make the Experience metric raise — a string `years_of_experience` gives
`TypeError` at the `>=` comparison, a non-string `job_title` gives
`AttributeError` at `.lower()` — and either exception propagates through
the orchestrator, refuting the claim that every metric catches internal
exceptions. -/
theorem C3_counterexample :
    experience_calculate emb0 candBadYears jc0 = .error .typeError ∧
    experience_calculate emb0 candBadTitle jc0 = .error .attributeError ∧
    calculate_similarity_with_context (fun _ => some candBadYears) emb0 7 jc0 none =
      .error .typeError ∧
    calculate_similarity_with_context (fun _ => some candBadTitle) emb0 7 jc0 none =
      .error .attributeError :=
  ⟨rfl, rfl, rfl, rfl⟩

/-- C3 amended: the Skills, Education, Language, Certification, Semantic and
Seniority metrics wrap their whole `calculate` body in a catch-all handler,
converting any internal exception into the metric-specific neutral fallback
(0.0, 0.0, 0.5, 0.5, 0.5 and 0.8 respectively); the Experience metric guards
only its responsibility-similarity step, so a truthy non-numeric
`years_of_experience` raises `TypeError` at the years comparison, and any
error the Experience metric raises propagates out of `calculate` and aborts
the orchestrator call with the same exception. -/
theorem C3_amended_defensive_metrics :
    (∀ (c : PyDict) (jc : JobContext) (e : Err),
      (skills_calculate_body c jc = .error e → skills_calculate c jc = 0) ∧
      (education_calculate_body c jc = .error e → education_calculate c jc = 0) ∧
      (language_calculate_body c jc = .error e → language_calculate c jc = 0.5) ∧
      (certification_calculate_body c jc = .error e → certification_calculate c jc = 0.5) ∧
      (seniority_calculate_body c jc = .error e → seniority_calculate c jc = 0.8)) ∧
    (∀ (emb : EmbOracle) (c : PyDict) (jc : JobContext) (e : Err),
      semantic_calculate_body emb c jc = .error e → semantic_calculate emb c jc = 0.5) ∧
    (∀ (emb : EmbOracle) (c : PyDict) (jc : JobContext) (y : PyVal),
      dgetd c "years_of_experience" (.vInt 0) = y → truthy y = true →
      toIntE y = .error .typeError →
      experience_calculate emb c jc = .error .typeError) ∧
    (∀ (dbc : ℤ → Option PyDict) (emb : EmbOracle) (cid : ℤ) (jc : JobContext)
      (cand : PyDict) (e : Err),
      dbc cid = some cand → cand.isEmpty = false →
      experience_calculate emb cand jc = .error e →
      calculate_similarity_with_context dbc emb cid jc none = .error e) := by
  refine ⟨?_, ?_, ?_, ?_⟩
  · intro c jc e
    refine ⟨fun hb => ?_, fun hb => ?_, fun hb => ?_, fun hb => ?_, fun hb => ?_⟩
    · unfold skills_calculate
      rw [hb]
      rfl
    · unfold education_calculate
      rw [hb]
      rfl
    · unfold language_calculate
      rw [hb]
      rfl
    · unfold certification_calculate
      rw [hb]
      rfl
    · unfold seniority_calculate
      rw [hb]
      rfl
  · intro emb c jc e hb
    unfold semantic_calculate
    rw [hb]
    rfl
  · intro emb c jc y hget hty htoInt
    unfold experience_calculate
    have hpy : pyOr (dgetd c "years_of_experience" (.vInt 0)) (.vInt 0) = y := by
      rw [hget]
      unfold pyOr
      rw [if_pos hty]
    rw [hpy, htoInt]
    rfl
  · intro dbc emb cid jc cand e h1 h2 h3
    unfold calculate_similarity_with_context
    rw [h1]
    dsimp only
    rw [if_neg (by rw [h2]; exact Bool.false_ne_true)]
    simp only [bind, Except.bind]
    rw [h3]

/-- C3 witness: a non-iterable skills field is converted to the 0.0 fallback
by the guarded Skills metric, while the string-years candidate makes the
unguarded Experience metric — and with it the orchestrator — raise
`TypeError`. -/
theorem C3_witness :
    skills_calculate [("skills", .vInt 5)] jc0 = 0 ∧
    experience_calculate emb0 candBadYears jc0 = .error .typeError ∧
    calculate_similarity_with_context (fun _ => some candBadYears) emb0 7 jc0 none =
      .error .typeError :=
  ⟨(C3_amended_defensive_metrics.1 [("skills", .vInt 5)] jc0 .typeError).1 (by decide),
   C3_amended_defensive_metrics.2.2.1 emb0 candBadYears jc0 (.vStr "ten") rfl rfl rfl,
   C3_amended_defensive_metrics.2.2.2 (fun _ => some candBadYears) emb0 7 jc0
     candBadYears .typeError rfl rfl rfl⟩

/-! ### C5 — skills metric test cases -/

/-- A job context requiring exactly the skill "Python". -/
def jcPy : JobContext := { jc0 with required_skills := ["Python"] }

/-- A candidate whose only skill is "python" (lower case). -/
def candPy : PyDict := [("skills", .vList [.vStr "python"])]

/-- A candidate whose only skill is "Java". -/
def candJava : PyDict := [("skills", .vList [.vStr "Java"])]

set_option maxRecDepth 100000 in
/-- C5 counterexample: candidate skills are not case-normalized, so
required "Python" against candidate "python" fuzzy-matches (ratio 5/6 ≥ 0.6)
but the union keeps both spellings: the score is 1/2, not the claimed 1.0. -/
theorem C5_counterexample :
    skills_calculate candPy jcPy = 1/2 ∧ skills_calculate candPy jcPy ≠ 1 := by
  with_unfolding_all decide

set_option maxRecDepth 100000 in
/-- C5 amended: with an empty required-skills list the score is 0.8 for every
candidate whose skills field extracts cleanly; required ["Python"] against
candidate ["python"] scores 1/2 (fuzzy-matched, but the union counts both
spellings since no normalization happens); required ["Python"] against
["Java"] scores 0 (Jaccard 0/2). -/
theorem C5_amended_skills_cases :
    (∀ (c : PyDict) (jc : JobContext) (cs : List String),
       jc.required_skills = [] → extract_candidate_skills c = .ok cs →
       skills_calculate c jc = 0.8) ∧
    skills_calculate candPy jcPy = 1/2 ∧
    skills_calculate candJava jcPy = 0 := by
  refine ⟨?_, ?_, ?_⟩
  · intro c jc cs hreq hex
    unfold skills_calculate skills_calculate_body
    rw [hex]
    simp [bind, Except.bind, hreq, Except.toOption]
  · with_unfolding_all decide
  · with_unfolding_all decide

/-- C5 witness: the three amended cases evaluated on the concrete fixtures.
-/
theorem C5_witness :
    skills_calculate candPy jc0 = 0.8 ∧
    skills_calculate candPy jcPy = 1/2 ∧
    skills_calculate candJava jcPy = 0 :=
  ⟨C5_amended_skills_cases.1 candPy jc0 ["python"] rfl (by decide),
   C5_amended_skills_cases.2.1, C5_amended_skills_cases.2.2⟩

/-! ### C4 — weight maps -/

/-- A weight map containing only the "skills" key. -/
def w_skills_only : List (String × ℚ) := [("skills", 1)]

/-- C4 counterexample: a weight map holding only the "skills" key makes the
orchestrator raise `KeyError("experience")` instead of self-normalizing over
the supplied subset. -/
theorem C4_counterexample :
    calculate_similarity_with_context (fun _ => some cand1) emb0 1 jc0
      (some w_skills_only) = .error (.keyError "experience") := by
  with_unfolding_all rfl

/-- C4 amended: for caller-supplied weight maps that contain all seven metric
keys (and a nonzero total), the orchestrator returns the weighted sum of the
seven metric scores divided by the sum of all supplied weights; a map missing
any of the seven keys raises `KeyError` instead of self-normalizing over the
supplied subset. -/
theorem C4_amended_weighted_sum (dbc : ℤ → Option PyDict) (emb : EmbOracle) (cid : ℤ)
    (jc : JobContext) (W : List (String × ℚ)) (cand : PyDict) (er : ℚ × Option String)
    (ws we wed wsem wsen wl wc : ℚ)
    (h1 : dbc cid = some cand) (h2 : cand.isEmpty = false)
    (h3 : experience_calculate emb cand jc = .ok er)
    (hw1 : wget W "skills" = .ok ws) (hw2 : wget W "experience" = .ok we)
    (hw3 : wget W "education" = .ok wed) (hw4 : wget W "semantic" = .ok wsem)
    (hw5 : wget W "seniority" = .ok wsen) (hw6 : wget W "language" = .ok wl)
    (hw7 : wget W "certification" = .ok wc) (htot : wsum W ≠ 0) :
    ∃ s, calculate_similarity_with_context dbc emb cid jc (some W) =
        .ok (s, { jc with vector_store := er.2 }) ∧
      s.overall_score = round4 ((skills_calculate cand jc * ws + er.1 * we +
        education_calculate cand { jc with vector_store := er.2 } * wed +
        semantic_calculate emb cand { jc with vector_store := er.2 } * wsem +
        seniority_calculate cand { jc with vector_store := er.2 } * wsen +
        language_calculate cand { jc with vector_store := er.2 } * wl +
        certification_calculate cand { jc with vector_store := er.2 } * wc) / wsum W) := by
  unfold calculate_similarity_with_context
  rw [h1]
  dsimp only
  rw [if_neg (by rw [h2]; exact Bool.false_ne_true)]
  simp only [bind, Except.bind, Option.getD]
  rw [h3]
  simp only
  rw [hw1]
  simp only
  rw [hw2]
  simp only
  rw [hw3]
  simp only
  rw [hw4]
  simp only
  rw [hw5]
  simp only
  rw [hw6]
  simp only
  rw [hw7]
  simp only
  rw [if_neg htot]
  exact ⟨_, rfl, rfl⟩

/-- C4 witness: the full default weight map on the trivial fixtures. -/
theorem C4_witness :
    ∃ s, calculate_similarity_with_context (fun _ => some cand1) emb0 1 jc0
        (some default_weights) = .ok (s, { jc0 with vector_store := none }) ∧
      s.overall_score = round4 ((skills_calculate cand1 jc0 * 0.30 + (0.72 : ℚ) * 0.25 +
        education_calculate cand1 { jc0 with vector_store := none } * 0.15 +
        semantic_calculate emb0 cand1 { jc0 with vector_store := none } * 0.05 +
        seniority_calculate cand1 { jc0 with vector_store := none } * 0.02 +
        language_calculate cand1 { jc0 with vector_store := none } * 0.03 +
        certification_calculate cand1 { jc0 with vector_store := none } * 0.02) /
        wsum default_weights) :=
  C4_amended_weighted_sum (fun _ => some cand1) emb0 1 jc0 default_weights cand1
    (0.72, none) 0.30 0.25 0.15 0.05 0.02 0.03 0.02 rfl rfl
    (by with_unfolding_all decide) rfl rfl rfl rfl rfl rfl rfl
    (by with_unfolding_all decide)

/-! ### C2 — cache: at most one build per job id -/

theorem preprocess_ok_lookup {dbj : ℤ → Option PyDict} {c : Cache} {rq : ℤ}
    {jc : JobContext} {c' : Cache} {b : Bool}
    (h : preprocess_job dbj c rq = .ok (jc, c', b)) : clookup c' rq = some jc := by
  unfold preprocess_job at h
  cases hl : clookup c rq with
  | some jc2 =>
    rw [hl] at h
    dsimp only at h
    simp only [Except.ok.injEq, Prod.mk.injEq] at h
    rw [← h.2.1, ← h.1]
    exact hl
  | none =>
    rw [hl] at h
    dsimp only at h
    cases hdb : dbj rq with
    | none => rw [hdb] at h; simp at h
    | some job =>
      rw [hdb] at h
      dsimp only at h
      split at h
      · simp at h
      · cases hb : build_job_context rq job with
        | error e => rw [hb] at h; simp at h
        | ok jc2 =>
          rw [hb] at h
          dsimp only at h
          simp only [Except.ok.injEq, Prod.mk.injEq] at h
          rw [← h.2.1, ← h.1]
          simp [clookup]

theorem preprocess_preserves_entry {dbj : ℤ → Option PyDict} {c : Cache} {rq j : ℤ}
    {jc : JobContext} {r : JobContext × Cache × Bool}
    (hc : clookup c j = some jc) (h : preprocess_job dbj c rq = .ok r) :
    clookup r.2.1 j = some jc := by
  unfold preprocess_job at h
  cases hl : clookup c rq with
  | some jc2 =>
    rw [hl] at h
    dsimp only at h
    simp only [Except.ok.injEq] at h
    rw [← h]
    exact hc
  | none =>
    have hne : rq ≠ j := by
      intro he
      rw [he, hc] at hl
      cases hl
    rw [hl] at h
    dsimp only at h
    cases hdb : dbj rq with
    | none => rw [hdb] at h; simp at h
    | some job =>
      rw [hdb] at h
      dsimp only at h
      split at h
      · simp at h
      · cases hb : build_job_context rq job with
        | error e => rw [hb] at h; simp at h
        | ok jc2 =>
          rw [hb] at h
          dsimp only at h
          simp only [Except.ok.injEq] at h
          rw [← h]
          simp only [clookup]
          rw [if_neg hne]
          exact hc

theorem buildsFor_cached {dbj : ℤ → Option PyDict} {j : ℤ} {jc : JobContext} :
    ∀ (reqs : List ℤ) (c : Cache), clookup c j = some jc →
      buildsFor dbj c reqs j = 0 := by
  intro reqs
  induction reqs with
  | nil => intro c _; rfl
  | cons rq rest ih =>
    intro c hc
    unfold buildsFor
    cases hp : preprocess_job dbj c rq with
    | error e => exact ih c hc
    | ok r =>
      dsimp only
      have hkeep := preprocess_preserves_entry hc hp
      have hzero : (if r.2.2 ∧ rq = j then 1 else 0) = 0 := by
        split
        · rename_i hand
          exfalso
          -- a cached id never rebuilds
          rcases hand with ⟨hb, hrq⟩
          rw [hrq] at hp
          unfold preprocess_job at hp
          rw [hc] at hp
          dsimp only at hp
          simp only [Except.ok.injEq] at hp
          rw [← hp] at hb
          simp at hb
        · rfl
      rw [hzero, ih r.2.1 hkeep]

/-- C2: `preprocess_job` (the cache's get-or-build) stores the context it
returns, a second call returns the identical cached context with the cache
unchanged and without running the builder, and over any sequence of
`preprocess_job` calls the builder runs at most once per job id. -/
theorem C2_at_most_one_build (dbj : ℤ → Option PyDict) (cache : Cache) (job_id : ℤ) :
    (∀ jc c' b, preprocess_job dbj cache job_id = .ok (jc, c', b) →
      clookup c' job_id = some jc ∧
      preprocess_job dbj c' job_id = .ok (jc, c', false)) ∧
    (∀ reqs, buildsFor dbj cache reqs job_id ≤ 1) := by
  constructor
  · intro jc c' b h
    have hl := preprocess_ok_lookup h
    refine ⟨hl, ?_⟩
    unfold preprocess_job
    rw [hl]
  · intro reqs
    induction reqs generalizing cache with
    | nil => exact Nat.zero_le 1
    | cons rq rest ih =>
      unfold buildsFor
      cases hp : preprocess_job dbj cache rq with
      | error e => exact ih cache
      | ok r =>
        dsimp only
        by_cases hand : (r.2.2 : Prop) ∧ rq = job_id
        · rw [if_pos hand]
          have hlook := preprocess_ok_lookup hp
          rw [hand.2] at hlook
          have h0 : buildsFor dbj r.2.1 rest job_id = 0 :=
            buildsFor_cached rest r.2.1 hlook
          rw [h0]
        · rw [if_neg hand]
          simpa using ih r.2.1

/-- The job lookup used by the cache witnesses. -/
def dbj1 : ℤ → Option PyDict := fun _ => some job1

/-- The context built from `job1` under id 3. -/
def jcJob1 : JobContext := { jc0 with job_id := 3, job_data := job1 }

/-- C2 witness: building job 3 into an empty cache stores it, a second call
returns the very same cached context without a build, and two successive
requests for job 3 build at most once. -/
theorem C2_witness :
    (clookup [((3:ℤ), jcJob1)] 3 = some jcJob1 ∧
      preprocess_job dbj1 [((3:ℤ), jcJob1)] 3 = .ok (jcJob1, [((3:ℤ), jcJob1)], false)) ∧
    buildsFor dbj1 [] [3, 3] 3 ≤ 1 :=
  ⟨(C2_at_most_one_build dbj1 [] 3).1 jcJob1 [((3:ℤ), jcJob1)] true rfl,
   (C2_at_most_one_build dbj1 [] 3).2 [3, 3]⟩

/-! ### C1 — all scores in [0, 1] under the default weights -/

/-- C1: whenever the orchestrator returns a score under the default weight
map, the overall score, the six named metric scores and the certification
score in the breakdown all lie in [0, 1]. -/
theorem C1_scores_in_unit_interval (dbc : ℤ → Option PyDict) (emb : EmbOracle)
    (cid : ℤ) (jc : JobContext) (s : SimilarityScore) (jc' : JobContext)
    (h : calculate_similarity_with_context dbc emb cid jc none = .ok (s, jc')) :
    (0 ≤ s.overall_score ∧ s.overall_score ≤ 1) ∧
    (0 ≤ s.skills_score ∧ s.skills_score ≤ 1) ∧
    (0 ≤ s.experience_score ∧ s.experience_score ≤ 1) ∧
    (0 ≤ s.education_score ∧ s.education_score ≤ 1) ∧
    (0 ≤ s.semantic_similarity ∧ s.semantic_similarity ≤ 1) ∧
    (0 ≤ s.seniority_match ∧ s.seniority_match ≤ 1) ∧
    (∀ bd, s.detailed_breakdown = some bd →
      0 ≤ bd.certification_score ∧ bd.certification_score ≤ 1) := by
  rcases calc_ok_inversion dbc emb cid jc none s jc' h with ⟨hs, _⟩ |
    ⟨cand, er, ws, we, wed, wsem, wsen, wl, wc, _, _, hex, _, hw1, hw2, hw3, hw4,
      hw5, hw6, hw7, htot, hs⟩
  · rw [hs]
    refine ⟨⟨le_refl 0, by norm_num [create_empty_score]⟩,
      ⟨le_refl 0, by norm_num [create_empty_score]⟩,
      ⟨le_refl 0, by norm_num [create_empty_score]⟩,
      ⟨le_refl 0, by norm_num [create_empty_score]⟩,
      ⟨le_refl 0, by norm_num [create_empty_score]⟩,
      ⟨le_refl 0, by norm_num [create_empty_score]⟩,
      fun bd hbd => by cases hbd⟩
  · simp only [Option.getD_none] at hw1 hw2 hw3 hw4 hw5 hw6 hw7 htot hs
    rw [show wget default_weights "skills" = Except.ok (0.30 : ℚ) from rfl] at hw1
    rw [show wget default_weights "experience" = Except.ok (0.25 : ℚ) from rfl] at hw2
    rw [show wget default_weights "education" = Except.ok (0.15 : ℚ) from rfl] at hw3
    rw [show wget default_weights "semantic" = Except.ok (0.05 : ℚ) from rfl] at hw4
    rw [show wget default_weights "seniority" = Except.ok (0.02 : ℚ) from rfl] at hw5
    rw [show wget default_weights "language" = Except.ok (0.03 : ℚ) from rfl] at hw6
    rw [show wget default_weights "certification" = Except.ok (0.02 : ℚ) from rfl] at hw7
    injection hw1 with e1
    injection hw2 with e2
    injection hw3 with e3
    injection hw4 with e4
    injection hw5 with e5
    injection hw6 with e6
    injection hw7 with e7
    have hsum : wsum default_weights = 0.82 := by
      show ((default_weights.map (·.2)).sum) = 0.82
      norm_num [default_weights]
    have hsk := skills_calculate_bounds cand jc
    have hexp := (experience_calculate_props emb cand jc hex).1
    have hed := education_calculate_bounds cand { jc with vector_store := er.2 }
    have hsem := semantic_calculate_bounds emb cand { jc with vector_store := er.2 }
    have hsen := seniority_calculate_bounds cand { jc with vector_store := er.2 }
    have hla := language_calculate_bounds cand { jc with vector_store := er.2 }
    have hce := certification_calculate_bounds cand { jc with vector_store := er.2 }
    rw [hs]
    refine ⟨⟨?_, ?_⟩,
      ⟨round4_nonneg hsk.1, round4_le_one hsk.2⟩,
      ⟨round4_nonneg hexp.1, round4_le_one hexp.2⟩,
      ⟨round4_nonneg hed.1, round4_le_one hed.2⟩,
      ⟨round4_nonneg hsem.1, round4_le_one hsem.2⟩,
      ⟨round4_nonneg hsen.1, round4_le_one hsen.2⟩,
      fun bd hbd => ?_⟩
    · apply round4_nonneg
      rw [hsum, ← e1, ← e2, ← e3, ← e4, ← e5, ← e6, ← e7]
      apply div_nonneg
      · nlinarith [hsk.1, hexp.1, hed.1, hsem.1, hsen.1, hla.1, hce.1]
      · norm_num
    · apply round4_le_one
      rw [hsum, ← e1, ← e2, ← e3, ← e4, ← e5, ← e6, ← e7]
      rw [div_le_one (by norm_num)]
      nlinarith [hsk.1, hsk.2, hexp.1, hexp.2, hed.1, hed.2, hsem.1, hsem.2,
        hsen.1, hsen.2, hla.1, hla.2, hce.1, hce.2]
    · simp only [Option.some.injEq] at hbd
      rw [← hbd]
      exact ⟨round4_nonneg hce.1, round4_le_one hce.2⟩

/-- C1 witness: the missing-candidate path returns the all-zero score, whose
components all lie in [0, 1]. -/
theorem C1_witness :
    calculate_similarity_with_context (fun _ => none) emb0 0 jc0 none =
      .ok (create_empty_score, jc0) ∧
    ((0 ≤ create_empty_score.overall_score ∧ create_empty_score.overall_score ≤ 1) ∧
     (0 ≤ create_empty_score.skills_score ∧ create_empty_score.skills_score ≤ 1) ∧
     (0 ≤ create_empty_score.experience_score ∧ create_empty_score.experience_score ≤ 1) ∧
     (0 ≤ create_empty_score.education_score ∧ create_empty_score.education_score ≤ 1) ∧
     (0 ≤ create_empty_score.semantic_similarity ∧ create_empty_score.semantic_similarity ≤ 1) ∧
     (0 ≤ create_empty_score.seniority_match ∧ create_empty_score.seniority_match ≤ 1) ∧
     (∀ bd, create_empty_score.detailed_breakdown = some bd →
       0 ≤ bd.certification_score ∧ bd.certification_score ≤ 1)) :=
  ⟨rfl, C1_scores_in_unit_interval (fun _ => none) emb0 0 jc0 create_empty_score jc0 rfl⟩

/-! ### C8 — job-context immutability -/

/-- C8: a successful orchestrator call changes no field of the given job
context except `vector_store`; an already-present `vector_store` is returned
unchanged, and any change can only be the none-to-some transition. -/
theorem C8_context_immutable (dbc : ℤ → Option PyDict) (emb : EmbOracle)
    (cid : ℤ) (jc : JobContext) (w : Option (List (String × ℚ)))
    (s : SimilarityScore) (jc' : JobContext)
    (h : calculate_similarity_with_context dbc emb cid jc w = .ok (s, jc')) :
    jc' = { jc with vector_store := jc'.vector_store } ∧
    (∀ d, jc.vector_store = some d → jc'.vector_store = some d) ∧
    (jc'.vector_store = jc.vector_store ∨ jc.vector_store = none) := by
  refine ⟨calc_frame dbc emb cid jc w s jc' h, ?_⟩
  rcases calc_ok_inversion dbc emb cid jc w s jc' h with ⟨_, hj⟩ |
    ⟨cand, er, _, _, _, _, _, _, _, _, _, hex, hj, _, _, _, _, _, _, _, _, _⟩
  · constructor
    · intro d hd
      rw [hj]
      exact hd
    · left
      rw [hj]
  · have hstep := (experience_calculate_props emb cand jc hex).2
    constructor
    · intro d hd
      rw [hj]
      rcases hstep with hv | ⟨hnone, _⟩
      · rw [hv]
        exact hd
      · rw [hnone] at hd
        cases hd
    · rcases hstep with hv | ⟨hnone, _⟩
      · left
        rw [hj]
        exact hv
      · right
        exact hnone

/-- C8 witness: the missing-candidate path leaves the trivial context
untouched. -/
theorem C8_witness :
    (jc0 = { jc0 with vector_store := jc0.vector_store }) ∧
    (∀ d, jc0.vector_store = some d → jc0.vector_store = some d) ∧
    (jc0.vector_store = jc0.vector_store ∨ jc0.vector_store = none) :=
  C8_context_immutable (fun _ => none) emb0 0 jc0 none create_empty_score jc0 rfl

/-! ### C6 — job not found fails, candidate not found degrades -/

theorem batchFold_props (dbc : ℤ → Option PyDict) (emb : EmbOracle) (jcB : JobContext) :
    ∀ (cids : List ℤ) (vs : Option String),
      (∀ cid vs2, cid ∈ cids →
        ∃ r, calculate_similarity_with_context dbc emb cid
          { jcB with vector_store := vs2 } none = .ok r) →
      ∃ ss jcF, batchFold dbc emb none { jcB with vector_store := vs } cids = .ok (ss, jcF) ∧
        ss.length = cids.length ∧
        ∀ p ∈ cids.zip ss, dbc p.1 = none → p.2 = create_empty_score := by
  intro cids
  induction cids with
  | nil =>
    intro vs _
    exact ⟨[], { jcB with vector_store := vs }, rfl, rfl, by simp⟩
  | cons cid rest ih =>
    intro vs hall
    obtain ⟨r, hr⟩ := hall cid vs (List.mem_cons_self _ _)
    have hframe : r.2 = { jcB with vector_store := r.2.vector_store } :=
      calc_frame dbc emb cid { jcB with vector_store := vs } none r.1 r.2 hr
    obtain ⟨ss, jcF, hfold, hlen, hzip⟩ :=
      ih r.2.vector_store (fun c2 vs2 hc2 => hall c2 vs2 (List.mem_cons_of_mem _ hc2))
    refine ⟨r.1 :: ss, jcF, ?_, by simp [hlen], ?_⟩
    · unfold batchFold
      rw [hr]
      simp only [bind, Except.bind]
      have hrec : batchFold dbc emb none r.2 rest = .ok (ss, jcF) := by
        rw [hframe]
        exact hfold
      rw [hrec]
    · intro p hp h0
      rw [List.zip_cons_cons] at hp
      rcases List.mem_cons.mp hp with hp1 | hp2
      · rw [hp1] at h0
        have h0q : dbc cid = none := h0
        rw [hp1]
        show r.1 = create_empty_score
        -- a missing candidate produces exactly the empty score
        unfold calculate_similarity_with_context at hr
        rw [h0q] at hr
        dsimp only at hr
        rw [Except.ok.injEq] at hr
        rw [← hr]
      · exact hzip p hp2 h0

/-- C6: with a cold cache, batch ranking raises exactly when the job record
is missing, while a missing candidate inside the batch silently becomes the
all-zero score and every other candidate is still scored (the output has one
score per requested candidate). -/
theorem C6_notfound_semantics (dbj dbc : ℤ → Option PyDict) (emb : EmbOracle)
    (cache : Cache) (cids : List ℤ) (job_id : ℤ)
    (hfresh : clookup cache job_id = none) :
    (dbj job_id = none →
      calculate_similarity_batch dbj dbc emb cids job_id none cache =
        .error .valueError) ∧
    (∀ job jc, dbj job_id = some job → job.isEmpty = false →
      build_job_context job_id job = .ok jc →
      (∀ cid vs, cid ∈ cids →
        ∃ r, calculate_similarity_with_context dbc emb cid
          { jc with vector_store := vs } none = .ok r) →
      ∃ ss cache2, calculate_similarity_batch dbj dbc emb cids job_id none cache =
          .ok (ss, cache2) ∧ ss.length = cids.length ∧
        ∀ p ∈ cids.zip ss, dbc p.1 = none → p.2 = create_empty_score) := by
  constructor
  · intro hdb
    unfold calculate_similarity_batch preprocess_job
    rw [hfresh]
    dsimp only
    rw [hdb]
    rfl
  · intro job jc hdb hne hbuild hall
    have hpre : preprocess_job dbj cache job_id = .ok (jc, (job_id, jc) :: cache, true) := by
      unfold preprocess_job
      rw [hfresh]
      dsimp only
      rw [hdb]
      dsimp only
      rw [hne]
      rw [if_neg (by exact Bool.false_ne_true)]
      rw [hbuild]
    obtain ⟨ss, jcF, hfold, hlen, hzip⟩ := batchFold_props dbc emb jc cids jc.vector_store hall
    refine ⟨ss, cacheUpdate ((job_id, jc) :: cache) job_id jcF, ?_, hlen, hzip⟩
    unfold calculate_similarity_batch
    rw [hpre]
    simp only [bind, Except.bind]
    rw [show batchFold dbc emb none jc cids = .ok (ss, jcF) from hfold]

/-- C6 witness: a missing job record aborts the batch, and with the job
present a batch of one (present) candidate is fully scored. -/
theorem C6_witness :
    calculate_similarity_batch (fun _ => none) (fun _ => some cand1) emb0 [1] 3 none [] =
      .error .valueError ∧
    ∃ ss cache2,
      calculate_similarity_batch dbj1 (fun _ => some cand1) emb0 [1] 3 none [] =
        .ok (ss, cache2) ∧ ss.length = [(1:ℤ)].length ∧
      ∀ p ∈ [(1:ℤ)].zip ss, (fun _ => some cand1) p.1 = none →
        p.2 = create_empty_score :=
  ⟨(C6_notfound_semantics (fun _ => none) (fun _ => some cand1) emb0 [] [1] 3 rfl).1 rfl,
   (C6_notfound_semantics dbj1 (fun _ => some cand1) emb0 [] [1] 3 rfl).2 job1 jcJob1
     rfl rfl rfl (fun cid vs _ => ⟨_, by with_unfolding_all rfl⟩)⟩

end CPM
